import Mathlib

/-!
Verification of the stolostron/ansible-collection.core helper logic.

Each section shallowly embeds one part of the Python source
(`plugins/module_utils/*.py`, `plugins/modules/*.py`) as executable Lean
definitions, and proves the behavioural properties claimed by the
design specification against those definitions.
-/

set_option maxHeartbeats 1000000

namespace Installer

/-! ## Semantic version comparison (`installer_utils.compare_version`)

The Python code matches version strings against the anchored regex
`^(?P<major>0|[1-9]\d*)(\.(?P<minor>0|[1-9]\d*)\.(?P<patch>0|[1-9]\d*).*)`
(`re.match`, so only a prefix of the string must match) and then compares
the named groups `major`, `minor`, `patch` as integers, in that order.
-/

/-- Value of a digit character. -/
def digitVal (c : Char) : Nat := c.toNat - 48

/-- Integer value of a digit string (most significant digit first). -/
def digitsToNat (ds : List Char) : Nat :=
  ds.foldl (fun a c => 10 * a + digitVal c) 0

/-- One numeric group of the semver regex, `0|[1-9]\d*`: either the single
character `0`, or a nonzero digit followed by a maximal run of digits
(the greedy match; backtracking cannot help because every group is
followed by `\.` or `.*`).  Returns the value and the unconsumed rest. -/
def parseNumGroup : List Char → Option (Nat × List Char)
  | [] => none
  | c :: cs =>
    if c = '0' then some (0, cs)
    else if c.isDigit then
      some (digitsToNat (c :: cs.takeWhile Char.isDigit), cs.dropWhile Char.isDigit)
    else none

/-- The anchored prefix match of the semver regex: `major.minor.patch`
followed by arbitrary text (the regex's trailing `.*` never causes a
failure under `re.match`).  Returns the `(major, minor, patch)` group
values, or `none` when the string does not match. -/
def parse_semver (s : String) : Option (Nat × Nat × Nat) :=
  match parseNumGroup s.data with
  | none => none
  | some (maj, r1) =>
    match r1 with
    | '.' :: r2 =>
      match parseNumGroup r2 with
      | none => none
      | some (minor, r3) =>
        match r3 with
        | '.' :: r4 =>
          match parseNumGroup r4 with
          | none => none
          | some (patch, _) => some (maj, minor, patch)
        | _ => none
    | _ => none

/-- The field-by-field comparison loop of `compare_version`:
for each of major, minor, patch in order, continue on equality,
return `false` when current < target, `true` when current > target;
`true` when all three are equal. -/
def compareFields (curr target : Nat × Nat × Nat) : Bool :=
  if curr.1 = target.1 then
    if curr.2.1 = target.2.1 then
      if curr.2.2 = target.2.2 then true
      else if curr.2.2 < target.2.2 then false
      else true
    else if curr.2.1 < target.2.1 then false
    else true
  else if curr.1 < target.1 then false
  else true

/-- `installer_utils.compare_version`: `None` arguments give `False`;
either string failing the semver regex gives `False`; otherwise the
parsed `(major, minor, patch)` triples are compared. -/
def compare_version (current_version target_version : Option String) : Bool :=
  match current_version, target_version with
  | none, _ => false
  | _, none => false
  | some c, some t =>
    match parse_semver c with
    | none => false
    | some curr =>
      match parse_semver t with
      | none => false
      | some target => compareFields curr target

/-- Lexicographic `≥` on `(major, minor, patch)` triples. -/
def TripleGe (a b : Nat × Nat × Nat) : Prop :=
  b.1 < a.1 ∨ (a.1 = b.1 ∧ (b.2.1 < a.2.1 ∨ (a.2.1 = b.2.1 ∧ b.2.2 ≤ a.2.2)))

lemma compareFields_iff (a b : Nat × Nat × Nat) :
    compareFields a b = true ↔ TripleGe a b := by
  obtain ⟨a1, a2, a3⟩ := a
  obtain ⟨b1, b2, b3⟩ := b
  simp only [compareFields, TripleGe]
  split_ifs <;> simp_all <;> omega

end Installer

/-- C1: `compare_version` returns `True` exactly when both arguments are
present, both match the semver regex, and the `(major, minor, patch)`
triple of the current version is lexicographically ≥ that of the target
(pre-release/build suffixes are ignored by the parse); moreover it
returns `False` whenever either argument is `None` or the current
version fails to parse (e.g. a missing minor or patch component). -/
theorem C1_compare_version_correct (c t : Option String) :
    (Installer.compare_version c t = true ↔
      ∃ cs ts pc pt, c = some cs ∧ t = some ts ∧
        Installer.parse_semver cs = some pc ∧
        Installer.parse_semver ts = some pt ∧
        Installer.TripleGe pc pt) ∧
    ((c = none ∨ t = none ∨ (∀ cs, c = some cs → Installer.parse_semver cs = none)) →
      Installer.compare_version c t = false) := by
  constructor
  · cases c with
    | none => simp [Installer.compare_version]
    | some cs =>
      cases t with
      | none => simp [Installer.compare_version]
      | some ts =>
        simp only [Installer.compare_version]
        cases hc : Installer.parse_semver cs with
        | none => simp [hc]
        | some pc =>
          cases ht : Installer.parse_semver ts with
          | none => simp [hc, ht]
          | some pt =>
            simp only [Installer.compareFields_iff]
            constructor
            · intro h
              exact ⟨cs, ts, pc, pt, rfl, rfl, hc, ht, h⟩
            · rintro ⟨cs', ts', pc', pt', hcs, hts, hc', ht', hge⟩
              cases hcs; cases hts
              rw [hc] at hc'; rw [ht] at ht'
              cases hc'; cases ht'
              exact hge
  · rintro (h | h | h)
    · subst h; cases t <;> rfl
    · subst h; cases c <;> rfl
    · cases c with
      | none => cases t <;> rfl
      | some cs =>
        cases t with
        | none => rfl
        | some ts => simp [Installer.compare_version, h cs rfl]

/-- Witness for C1: a concrete evaluation.  `compare_version "2.10.0" "2.4.9"`
is `true` (and the triples are as claimed), while `compare_version "1.2" t`
is `false` because the minor/patch part is missing. -/
theorem C1_compare_version_correct_witness :
    Installer.compare_version (some "2.10.0") (some "2.4.9") = true ∧
    Installer.compare_version (some "1.2") (some "1.0.0") = false := by
  refine ⟨?_, ?_⟩
  · exact ((C1_compare_version_correct (some "2.10.0") (some "2.4.9")).1).2
      ⟨"2.10.0", "2.4.9", (2, 10, 0), (2, 4, 9), rfl, rfl, by decide, by decide, by
        simp [Installer.TripleGe]⟩
  · exact (C1_compare_version_correct (some "1.2") (some "1.0.0")).2
      (Or.inr (Or.inr (by intro cs h; cases h; decide)))

namespace Installer

/-! ## Component enablement (`installer_utils.get/set_component_status`)

The MultiClusterHub / MultiClusterEngine custom resource is embedded as a
typed structure: an optional `spec`, an optional `spec.overrides`, and an
optional `spec.overrides.components` list whose entries carry an optional
`name` and an optional `enabled` flag.  Each structure keeps a `rest`
field standing for the remaining dictionary entries, which the Python
code never touches. -/

structure Component where
  name? : Option String
  enabled? : Option Bool
  rest : List (String × String)
  deriving DecidableEq, Repr

structure Overrides where
  components? : Option (List Component)
  rest : List (String × String)
  deriving DecidableEq, Repr

structure MchSpec where
  overrides? : Option Overrides
  rest : List (String × String)
  deriving DecidableEq, Repr

structure MchObj where
  spec? : Option MchSpec
  rest : List (String × String)
  deriving DecidableEq, Repr

/-- The traversal `get_nested(obj, ['spec', 'overrides', 'components'])`
used by `get_component_status` on the typed object. -/
def getComponents : Option MchObj → Option (List Component)
  | none => none
  | some o =>
    match o.spec? with
    | none => none
    | some s =>
      match s.overrides? with
      | none => none
      | some ov => ov.components?

/-- The scan loop of `get_component_status`: skip components whose
`name` (default `''`) differs, return the first match's `enabled`
(default `False`); `False` when the list is exhausted. -/
def getStatusLoop (component_name : String) : List Component → Bool
  | [] => false
  | c :: cs =>
    if c.name?.getD "" ≠ component_name then getStatusLoop component_name cs
    else c.enabled?.getD false

/-- `installer_utils.get_component_status`. -/
def get_component_status (obj : Option MchObj) (component_name : String) : Bool :=
  match getComponents obj with
  | none => false
  | some comps => getStatusLoop component_name comps

/-- One iteration of the update loop of `set_component_status`: a
component whose `name` matches gets `enabled` written when it differs
from the current value (default `False`); others are untouched. -/
def updateComponent (component_name : String) (enabled : Bool) (c : Component) : Component :=
  if c.name?.getD "" = component_name then
    if c.enabled?.getD false ≠ enabled then { c with enabled? := some enabled } else c
  else c

/-- The body of `set_component_status` acting on the components list:
update every matching entry in place, and append a fresh
`{'name': ..., 'enabled': ...}` entry when no entry matched. -/
def setComponents (comps : List Component) (component_name : String) (enabled : Bool) :
    List Component :=
  if comps.any (fun c => c.name?.getD "" = component_name) then
    comps.map (updateComponent component_name enabled)
  else
    comps.map (updateComponent component_name enabled) ++
      [{ name? := some component_name, enabled? := some enabled, rest := [] }]

/-- `installer_utils.set_component_status`: `None` objects and objects
without a `spec` key make the module fail (`none` result); otherwise
`spec.overrides` and `spec.overrides.components` are created when absent
and the components list is updated in place. -/
def set_component_status (obj : Option MchObj) (component_name : String) (enabled : Bool) :
    Option MchObj :=
  match obj with
  | none => none
  | some o =>
    match o.spec? with
    | none => none
    | some s =>
      let ov := s.overrides?.getD { components? := none, rest := [] }
      some { o with
        spec? := some { s with
          overrides? := some { ov with
            components? := some (setComponents (ov.components?.getD []) component_name enabled) } } }

lemma updateComponent_name (n : String) (b : Bool) (c : Component) :
    (updateComponent n b c).name? = c.name? := by
  unfold updateComponent
  split_ifs <;> rfl

lemma updateComponent_enabled (n : String) (b : Bool) (c : Component)
    (h : c.name?.getD "" = n) : (updateComponent n b c).enabled?.getD false = b := by
  unfold updateComponent
  rw [if_pos h]
  by_cases hb : c.enabled?.getD false ≠ b
  · rw [if_pos hb]
    rfl
  · rw [if_neg hb]
    exact not_ne_iff.mp hb

lemma updateComponent_id (n : String) (b : Bool) (c : Component)
    (h : c.name?.getD "" = n → c.enabled?.getD false = b) : updateComponent n b c = c := by
  unfold updateComponent
  split_ifs with h1 h2
  · exact absurd (h h1) h2
  · rfl
  · rfl

/-- Every matching entry of `setComponents comps n b` carries `enabled = b`. -/
lemma setComponents_matching (comps : List Component) (n : String) (b : Bool) :
    ∀ c ∈ setComponents comps n b, c.name?.getD "" = n → c.enabled?.getD false = b := by
  intro c hc hname
  unfold setComponents at hc
  split_ifs at hc with hany
  · obtain ⟨c0, _, rfl⟩ := List.mem_map.mp hc
    exact updateComponent_enabled n b c0 (by rwa [updateComponent_name] at hname)
  · rcases List.mem_append.mp hc with hm | hm
    · obtain ⟨c0, _, rfl⟩ := List.mem_map.mp hm
      exact updateComponent_enabled n b c0 (by rwa [updateComponent_name] at hname)
    · simp only [List.mem_singleton] at hm
      subst hm
      rfl

/-- `setComponents` always leaves a matching entry in the list. -/
lemma setComponents_any (comps : List Component) (n : String) (b : Bool) :
    (setComponents comps n b).any (fun c => c.name?.getD "" = n) = true := by
  unfold setComponents
  split_ifs with hany
  · rw [List.any_eq_true] at hany ⊢
    obtain ⟨c, hc, hn⟩ := hany
    refine ⟨updateComponent n b c, List.mem_map_of_mem _ hc, ?_⟩
    rwa [updateComponent_name]
  · rw [List.any_eq_true]
    exact ⟨_, List.mem_append_right _ (List.mem_singleton_self _), by simp⟩

lemma getStatusLoop_of_matching (n : String) (b : Bool) :
    ∀ comps : List Component,
      comps.any (fun c => c.name?.getD "" = n) = true →
      (∀ c ∈ comps, c.name?.getD "" = n → c.enabled?.getD false = b) →
      getStatusLoop n comps = b := by
  intro comps
  induction comps with
  | nil => intro h; simp at h
  | cons c cs ih =>
    intro hany hall
    unfold getStatusLoop
    by_cases hn : c.name?.getD "" = n
    · rw [if_neg (by simpa using hn)]
      exact hall c (List.mem_cons_self c cs) hn
    · rw [if_pos (by simpa using hn)]
      refine ih ?_ ?_
      · rcases List.any_eq_true.mp hany with ⟨c', hc', hn'⟩
        rcases List.mem_cons.mp hc' with rfl | hc'
        · exact absurd (by simpa using hn') hn
        · exact List.any_eq_true.mpr ⟨c', hc', hn'⟩
      · exact fun c' hc' => hall c' (List.mem_cons_of_mem _ hc')

lemma map_updateComponent_self (n : String) (b : Bool) :
    ∀ l : List Component, (∀ c ∈ l, c.name?.getD "" = n → c.enabled?.getD false = b) →
      l.map (updateComponent n b) = l := by
  intro l
  induction l with
  | nil => intro _; rfl
  | cons c cs ih =>
    intro h
    simp only [List.map_cons]
    rw [updateComponent_id n b c (h c (List.mem_cons_self c cs)),
      ih (fun c' hc' => h c' (List.mem_cons_of_mem _ hc'))]

/-- A list that already contains a matching entry and in which every
matching entry carries `enabled = b` is a fixed point of `setComponents`. -/
lemma setComponents_stable (l : List Component) (n : String) (b : Bool)
    (hany : l.any (fun c => c.name?.getD "" = n) = true)
    (hall : ∀ c ∈ l, c.name?.getD "" = n → c.enabled?.getD false = b) :
    setComponents l n b = l := by
  unfold setComponents
  rw [if_pos hany]
  exact map_updateComponent_self n b l hall

lemma setComponents_idem (comps : List Component) (n : String) (b : Bool) :
    setComponents (setComponents comps n b) n b = setComponents comps n b :=
  setComponents_stable _ n b (setComponents_any comps n b) (setComponents_matching comps n b)

end Installer

/-- C2: whenever `set_component_status obj module n b` returns without
failing (modelled as a `some` result), `get_component_status` on the
resulting object reports `b` for component `n`, and running
`set_component_status` again with the same `n` and `b` leaves the object
unchanged. -/
theorem C2_component_status_roundtrip_idempotent
    (obj : Option Installer.MchObj) (n : String) (b : Bool) (o' : Installer.MchObj)
    (h : Installer.set_component_status obj n b = some o') :
    Installer.get_component_status (some o') n = b ∧
    Installer.set_component_status (some o') n b = some o' := by
  cases obj with
  | none => exact absurd h (by simp [Installer.set_component_status])
  | some o =>
    cases hs : o.spec? with
    | none =>
      rw [Installer.set_component_status, hs] at h
      exact absurd h (by simp)
    | some s =>
      rw [Installer.set_component_status, hs] at h
      simp only [Option.some.injEq] at h
      subst h
      constructor
      · rw [Installer.get_component_status]
        simp only [Installer.getComponents]
        exact Installer.getStatusLoop_of_matching n b _
          (Installer.setComponents_any _ n b)
          (Installer.setComponents_matching _ n b)
      · rw [Installer.set_component_status]
        simp only [Option.getD_some, Installer.setComponents_idem]

/-- Witness for C2: enabling `search-collector` on an object whose spec
has no `overrides` yet appends the component; the round trip reads back
`true` and a second identical set is the identity. -/
theorem C2_component_status_roundtrip_idempotent_witness :
    Installer.get_component_status
      (some ⟨some ⟨some ⟨some [⟨some "search-collector", some true, []⟩], []⟩, []⟩, []⟩)
      "search-collector" = true ∧
    Installer.set_component_status
      (some ⟨some ⟨some ⟨some [⟨some "search-collector", some true, []⟩], []⟩, []⟩, []⟩)
      "search-collector" true =
      some ⟨some ⟨some ⟨some [⟨some "search-collector", some true, []⟩], []⟩, []⟩, []⟩ :=
  C2_component_status_roundtrip_idempotent
    (some ⟨some ⟨none, []⟩, []⟩) "search-collector" true _ (by decide)

/-! ## Python values and `installer_utils.get_nested` (claim C3)

Parsed YAML / Kubernetes objects are embedded as a small Python value
type.  `dict.get` is association-list lookup; calling `.get` on a
non-dictionary raises `AttributeError`, which the embedding surfaces as
an explicit error result. -/

inductive PyVal where
  | vnone : PyVal
  | vbool : Bool → PyVal
  | vint : Int → PyVal
  | vstr : String → PyVal
  | vdict : List (String × PyVal) → PyVal
  | vlist : List PyVal → PyVal

/-- Result of running a fragment of Python code: a value, or an uncaught
`AttributeError` / `TypeError`. -/
inductive PyResult (α : Type) where
  | ok : α → PyResult α
  | attrError : PyResult α

/-- `dict.get(key)`: the value bound to `key`, or `none` when absent. -/
def dictGet : List (String × PyVal) → String → Option PyVal
  | [], _ => none
  | (k, v) :: es, key => if k = key then some v else dictGet es key

namespace Installer

/-- The loop of `get_nested`: `next = curr.get(p)`; return `None` when the
lookup is absent or bound to `None`, descend otherwise.  `curr.get` on a
non-dictionary raises `AttributeError`. -/
def getNestedLoop : List String → PyVal → PyResult PyVal
  | [], curr => .ok curr
  | p :: ps, curr =>
    match curr with
    | .vdict es =>
      match dictGet es p with
      | none => .ok .vnone
      | some .vnone => .ok .vnone
      | some v => getNestedLoop ps v
    | _ => .attrError

/-- `installer_utils.get_nested`: `None` objects short-circuit to `None`,
otherwise the path is traversed. -/
def get_nested (obj : PyVal) (path_list : List String) : PyResult PyVal :=
  match obj with
  | .vnone => .ok .vnone
  | _ => getNestedLoop path_list obj

/-- Modelled from the spec sentence for C3: the value reached by
successively indexing `obj` with each key of `path_list` in order,
`None` as soon as the object is `None` or a key is absent. -/
def get_nested_spec : List String → PyVal → PyVal
  | _, .vnone => .vnone
  | [], o => o
  | p :: ps, .vdict es =>
    match dictGet es p with
    | none => .vnone
    | some v => get_nested_spec ps v
  | _ :: _, _ => .vnone

/-- The side condition of C3: every object on which the traversal calls
`.get` is a dictionary (the traversal stops early at absent keys and at
`None` values, so later path entries are unconstrained). -/
def chainOk : List String → PyVal → Bool
  | [], _ => true
  | p :: ps, .vdict es =>
    (match dictGet es p with
     | none => true
     | some .vnone => true
     | some v => chainOk ps v)
  | _ :: _, _ => false

lemma getNestedLoop_spec (path : List String) :
    ∀ obj : PyVal, chainOk path obj = true →
      getNestedLoop path obj = .ok (get_nested_spec path obj) := by
  induction path with
  | nil =>
    intro obj _
    cases obj <;> rfl
  | cons p ps ih =>
    intro obj hok
    cases obj with
    | vdict es =>
      rw [getNestedLoop, get_nested_spec]
      cases hg : dictGet es p with
      | none => simp [hg]
      | some v =>
        cases v with
        | vnone => simp [hg, get_nested_spec]
        | vbool b =>
          rw [chainOk, hg] at hok
          simp only [hg]
          exact ih _ hok
        | vint i =>
          rw [chainOk, hg] at hok
          simp only [hg]
          exact ih _ hok
        | vstr s =>
          rw [chainOk, hg] at hok
          simp only [hg]
          exact ih _ hok
        | vdict es' =>
          rw [chainOk, hg] at hok
          simp only [hg]
          exact ih _ hok
        | vlist l =>
          rw [chainOk, hg] at hok
          simp only [hg]
          exact ih _ hok
    | vnone =>
      rw [show chainOk (p :: ps) PyVal.vnone = false from rfl] at hok
      exact Bool.noConfusion hok
    | vbool b =>
      rw [show chainOk (p :: ps) (PyVal.vbool b) = false from rfl] at hok
      exact Bool.noConfusion hok
    | vint i =>
      rw [show chainOk (p :: ps) (PyVal.vint i) = false from rfl] at hok
      exact Bool.noConfusion hok
    | vstr s =>
      rw [show chainOk (p :: ps) (PyVal.vstr s) = false from rfl] at hok
      exact Bool.noConfusion hok
    | vlist l =>
      rw [show chainOk (p :: ps) (PyVal.vlist l) = false from rfl] at hok
      exact Bool.noConfusion hok

end Installer

/-- C3: for every `obj` that is `None` or a dictionary whose intermediate
values along `path_list` are dictionaries, `get_nested` raises nothing
and returns exactly the value described by the specification: the result
of successively indexing `obj` with each key of `path_list`, or `None`
as soon as the object is `None` or a lookup is absent or `None`.
(The embedding is a pure function, so `obj` is trivially unmodified.) -/
theorem C3_get_nested_correct (obj : PyVal) (path_list : List String)
    (h : obj = PyVal.vnone ∨ Installer.chainOk path_list obj = true) :
    Installer.get_nested obj path_list =
      PyResult.ok (Installer.get_nested_spec path_list obj) := by
  rcases h with rfl | hok
  · cases path_list <;> rfl
  · cases obj with
    | vnone => cases path_list <;> rfl
    | vbool b => exact Installer.getNestedLoop_spec path_list _ hok
    | vint i => exact Installer.getNestedLoop_spec path_list _ hok
    | vstr s => exact Installer.getNestedLoop_spec path_list _ hok
    | vdict es => exact Installer.getNestedLoop_spec path_list _ hok
    | vlist l => exact Installer.getNestedLoop_spec path_list _ hok

/-- Witness for C3: traversing `{'spec': {'overrides': {'components': []}}}`
along `['spec', 'overrides', 'components']` yields the empty list, and a
missing key yields `None`. -/
theorem C3_get_nested_correct_witness :
    Installer.get_nested
      (PyVal.vdict [("spec", PyVal.vdict [("overrides",
        PyVal.vdict [("components", PyVal.vlist [])])])])
      ["spec", "overrides", "components"] = PyResult.ok (PyVal.vlist []) ∧
    Installer.get_nested (PyVal.vdict [("spec", PyVal.vdict [])])
      ["spec", "overrides", "components"] = PyResult.ok PyVal.vnone := by
  constructor
  · have h := C3_get_nested_correct
      (PyVal.vdict [("spec", PyVal.vdict [("overrides",
        PyVal.vdict [("components", PyVal.vlist [])])])])
      ["spec", "overrides", "components"] (Or.inr rfl)
    exact h.trans rfl
  · have h := C3_get_nested_correct (PyVal.vdict [("spec", PyVal.vdict [])])
      ["spec", "overrides", "components"] (Or.inr rfl)
    exact h.trans rfl

namespace AddonUtils

/-! ## Deferred import errors (claim C4)

`addon_utils.py`, `import_utils.py` and the module files import the
optional libraries `kubernetes`, `yaml` and `jinja2` inside
`try/except ImportError` blocks at load time, recording failures in the
module-level `IMP_ERR` dictionary.  The embedding represents a load as a
function from library availability to the recorded `IMP_ERR` contents,
returning `Except` to make "no exception escapes the load" a statement,
and represents the helpers as traces of the external actions they
perform together with their Ansible outcome. -/

/-- The `IMP_ERR` dictionary: which optional libraries failed to import. -/
structure ImpErr where
  k8s : Bool
  yaml : Bool
  jinja2 : Bool
  deriving DecidableEq, Repr

/-- Loading `addon_utils.py`: each of the three guarded imports either
succeeds or records its `ImportError` in `IMP_ERR`; the load itself
always completes (`Except.ok`). -/
def module_load (k8s_ok yaml_ok jinja2_ok : Bool) : Except String ImpErr :=
  .ok { k8s := !k8s_ok, yaml := !yaml_ok, jinja2 := !jinja2_ok }

/-- External actions a helper can perform, in order. -/
inductive Action where
  | resourcesGet
  | apiGetAddon
  | jinjaRender
  | yamlLoad
  | apiCreateAddon
  | loadKubeconfig
  deriving DecidableEq, Repr

/-- Final Ansible outcome of a helper. -/
inductive Outcome where
  | failMissingLib (lib : String)
  | failCreate
  | exitAlreadyEnabled
  | okAddon
  deriving DecidableEq, Repr

/-- `addon_utils.ensure_managed_cluster_addon_enabled`: fail immediately
when `'k8s' in IMP_ERR`; otherwise look the addon up (trace entries for
the dynamic-client calls); when it is absent, check `jinja2` and `yaml`
in `IMP_ERR` before rendering/parsing the addon template and creating
the resource.  `existingAddon` models the result of the addon `get`
(`none` = `NotFoundError`), `createOk` the result of `create`. -/
def ensure_managed_cluster_addon_enabled (imp : ImpErr) (existingAddon : Option Unit)
    (createOk : Bool) : List Action × Outcome :=
  if imp.k8s then ([], .failMissingLib "kubernetes")
  else
    match existingAddon with
    | some _ => ([.resourcesGet, .apiGetAddon], .exitAlreadyEnabled)
    | none =>
      if imp.jinja2 then ([.resourcesGet, .apiGetAddon], .failMissingLib "jinja2")
      else if imp.yaml then ([.resourcesGet, .apiGetAddon], .failMissingLib "yaml")
      else if createOk then
        ([.resourcesGet, .apiGetAddon, .jinjaRender, .yamlLoad, .apiCreateAddon], .okAddon)
      else
        ([.resourcesGet, .apiGetAddon, .jinjaRender, .yamlLoad, .apiCreateAddon], .failCreate)

/-- The prelude of `policyset.execute_module`: `IMP_ERR` is checked for
`k8s`, `jinja2` and `yaml` (in that order) before the kubeconfig is
loaded or any client is built.  The second component is the missing
library reported through `fail_json`, if any. -/
def policyset_module_prelude (imp : ImpErr) : List Action × Option String :=
  if imp.k8s then ([], some "kubernetes")
  else if imp.jinja2 then ([], some "jinja2")
  else if imp.yaml then ([], some "yaml")
  else ([.loadKubeconfig], none)

/-- The `IMP_ERR` dictionary of `managed_serviceaccount_addon.py`: only
`yaml`, `jinja2` and `polling` are ever recorded there — a failed
`kubernetes` import is not recorded but re-raised at load time. -/
structure MsaImpErr where
  yaml : Bool
  jinja2 : Bool
  polling : Bool
  deriving DecidableEq, Repr

/-- Loading `managed_serviceaccount_addon.py`: the guarded imports of
`yaml`, `jinja2` and `polling` record their failures in `IMP_ERR`, but a
`kubernetes` ImportError is re-raised as `AnsibleError` directly
("kubernetes are always used, so if cannot be imported, will raise
error directly"), so the load itself fails. -/
def msa_addon_module_load (k8s_ok yaml_ok jinja2_ok polling_ok : Bool) :
    Except String MsaImpErr :=
  if k8s_ok then .ok { yaml := !yaml_ok, jinja2 := !jinja2_ok, polling := !polling_ok }
  else .error "Error importing Kubernetes"

/-- How a `managed_serviceaccount_addon` helper reports a missing
library: it raises `AnsibleError`; `fail_json` is never used for this. -/
inductive MsaOutcome where
  | raiseAnsibleError (lib : String)
  | failJson (lib : String)
  | ok
  deriving DecidableEq, Repr

/-- The import-error checks of
`managed_serviceaccount_addon.ensure_managed_service_account` (the
`ensure_managed_service_account_rbac` prelude is identical): a missing
`jinja2` or `yaml` raises `AnsibleError` at call time. -/
def ensure_managed_service_account_libcheck (imp : MsaImpErr) : MsaOutcome :=
  if imp.jinja2 then .raiseAnsibleError "jinja2"
  else if imp.yaml then .raiseAnsibleError "yaml"
  else .ok

/-- The import-error check of
`managed_serviceaccount_addon.wait_for_serviceaccount_secret`: a missing
`polling` raises `AnsibleError` at call time. -/
def wait_for_serviceaccount_secret_libcheck (imp : MsaImpErr) : MsaOutcome :=
  if imp.polling then .raiseAnsibleError "polling" else .ok

end AddonUtils

/-- C4 counterexample: the claim says loading the module files raises no
exception and records import errors in `IMP_ERR`, but
`managed_serviceaccount_addon.py` re-raises a failed `kubernetes` import
as `AnsibleError` at load time: with `kubernetes` unavailable its load
errors out instead of completing with an `IMP_ERR` entry. -/
theorem C4_import_errors_counterexample :
    AddonUtils.msa_addon_module_load false true true true =
      Except.error "Error importing Kubernetes" ∧
    (AddonUtils.msa_addon_module_load false true true true).isOk = false :=
  ⟨rfl, rfl⟩

/-- C4 (amended): in `addon_utils.py`, `import_utils.py`,
`installer_utils.py` and the module files other than
`managed_serviceaccount_addon.py`, a failed optional import never aborts
the load: `module_load` completes for every availability combination,
recording exactly the failed libraries in `IMP_ERR`, and every operation
needing a library reports it via `fail_json` at call time before any use
of that library (`ensure_managed_cluster_addon_enabled`, policyset's
`execute_module`).  `managed_serviceaccount_addon.py` is the exception:
its load re-raises a `kubernetes` ImportError as `AnsibleError`
(recording nothing), and its helpers report missing `jinja2`/`yaml`/
`polling` by raising `AnsibleError` at call time instead of calling
`fail_json`. -/
theorem C4_import_errors_deferred_amended :
    (∀ k y j, AddonUtils.module_load k y j =
      Except.ok { k8s := !k, yaml := !y, jinja2 := !j }) ∧
    (∀ imp ex c, imp.k8s = true →
      AddonUtils.ensure_managed_cluster_addon_enabled imp ex c =
        ([], AddonUtils.Outcome.failMissingLib "kubernetes")) ∧
    (∀ imp c, imp.k8s = false → imp.jinja2 = true →
      (AddonUtils.ensure_managed_cluster_addon_enabled imp none c).2 =
        AddonUtils.Outcome.failMissingLib "jinja2" ∧
      AddonUtils.Action.jinjaRender ∉
        (AddonUtils.ensure_managed_cluster_addon_enabled imp none c).1) ∧
    (∀ imp c, imp.k8s = false → imp.jinja2 = false → imp.yaml = true →
      (AddonUtils.ensure_managed_cluster_addon_enabled imp none c).2 =
        AddonUtils.Outcome.failMissingLib "yaml" ∧
      AddonUtils.Action.yamlLoad ∉
        (AddonUtils.ensure_managed_cluster_addon_enabled imp none c).1) ∧
    (∀ imp, (imp.k8s || imp.jinja2 || imp.yaml) = true →
      ∃ lib, AddonUtils.policyset_module_prelude imp = ([], some lib)) ∧
    (∀ y j p, AddonUtils.msa_addon_module_load true y j p =
      Except.ok { yaml := !y, jinja2 := !j, polling := !p }) ∧
    (∀ y j p, AddonUtils.msa_addon_module_load false y j p =
      Except.error "Error importing Kubernetes") ∧
    (∀ imp : AddonUtils.MsaImpErr,
      (imp.jinja2 = true →
        AddonUtils.ensure_managed_service_account_libcheck imp =
          AddonUtils.MsaOutcome.raiseAnsibleError "jinja2") ∧
      (imp.jinja2 = false → imp.yaml = true →
        AddonUtils.ensure_managed_service_account_libcheck imp =
          AddonUtils.MsaOutcome.raiseAnsibleError "yaml") ∧
      (∀ lib, AddonUtils.ensure_managed_service_account_libcheck imp ≠
        AddonUtils.MsaOutcome.failJson lib) ∧
      (imp.polling = true →
        AddonUtils.wait_for_serviceaccount_secret_libcheck imp =
          AddonUtils.MsaOutcome.raiseAnsibleError "polling") ∧
      (∀ lib, AddonUtils.wait_for_serviceaccount_secret_libcheck imp ≠
        AddonUtils.MsaOutcome.failJson lib)) := by
  refine ⟨fun k y j => rfl, ?_, ?_, ?_, ?_, fun y j p => rfl, fun y j p => rfl, ?_⟩
  · intro imp ex c hk
    simp [AddonUtils.ensure_managed_cluster_addon_enabled, hk]
  · intro imp c hk hj
    simp [AddonUtils.ensure_managed_cluster_addon_enabled, hk, hj]
  · intro imp c hk hj hy
    simp [AddonUtils.ensure_managed_cluster_addon_enabled, hk, hj, hy]
  · intro imp h
    obtain ⟨k8s, yaml, jinja2⟩ := imp
    simp only [Bool.or_eq_true] at h
    rcases h with (hk | hj) | hy
    · subst hk; exact ⟨"kubernetes", rfl⟩
    · subst hj
      cases k8s with
      | true => exact ⟨"kubernetes", rfl⟩
      | false => exact ⟨"jinja2", rfl⟩
    · subst hy
      cases k8s with
      | true => exact ⟨"kubernetes", rfl⟩
      | false =>
        cases jinja2 with
        | true => exact ⟨"jinja2", rfl⟩
        | false => exact ⟨"yaml", rfl⟩
  · intro imp
    refine ⟨?_, ?_, ?_, ?_, ?_⟩
    · intro hj
      rw [AddonUtils.ensure_managed_service_account_libcheck, if_pos hj]
    · intro hj hy
      rw [AddonUtils.ensure_managed_service_account_libcheck, if_neg (by simp [hj]),
        if_pos hy]
    · intro lib
      rw [AddonUtils.ensure_managed_service_account_libcheck]
      split_ifs <;> simp
    · intro hp
      rw [AddonUtils.wait_for_serviceaccount_secret_libcheck, if_pos hp]
    · intro lib
      rw [AddonUtils.wait_for_serviceaccount_secret_libcheck]
      split_ifs <;> simp

/-- Witness for C4 (amended): with only `kubernetes` missing the
`addon_utils` helper fails with the missing-library message and an empty
action trace; the policyset prelude reports a missing library; and with
`jinja2` missing the `managed_serviceaccount_addon` helper raises
`AnsibleError` rather than calling `fail_json`. -/
theorem C4_import_errors_deferred_amended_witness :
    AddonUtils.ensure_managed_cluster_addon_enabled ⟨true, false, false⟩ none true =
      ([], AddonUtils.Outcome.failMissingLib "kubernetes") ∧
    (∃ lib, AddonUtils.policyset_module_prelude ⟨false, true, false⟩ = ([], some lib)) ∧
    AddonUtils.ensure_managed_service_account_libcheck ⟨false, true, false⟩ =
      AddonUtils.MsaOutcome.raiseAnsibleError "jinja2" :=
  ⟨C4_import_errors_deferred_amended.2.1 ⟨true, false, false⟩ none true rfl,
   C4_import_errors_deferred_amended.2.2.2.2.1 ⟨false, true, false⟩ rfl,
   (C4_import_errors_deferred_amended.2.2.2.2.2.2.2 ⟨false, true, false⟩).1 rfl⟩

namespace Waits

/-! ## Watch-based wait helpers (claim C5)

`import_utils.py` and `addon_utils.py` block on
`resource_api.watch(timeout=...)` loops of the shape
`for event in watch: if CONDITION: return True` followed by
`return False`.  A watch call is embedded as the finite list of events
it delivers before its timeout; `wait_for_addon_available` additionally
re-invokes the watch inside `while time.time() - start_time < timeout`,
which is embedded by a list of watch batches each carrying the wall-clock
duration of that watch call. -/

/-- One entry of a resource's `status.conditions` list. -/
structure WatchCondition where
  ctype : String
  cstatus : String
  deriving DecidableEq, Repr

/-- The part of a watch event's object that the wait helpers inspect:
`metadata.name`, the optional `status` (with its `conditions` list,
defaulted to `[]` by `status.get('conditions', [])`), and the optional
`data` keys of a secret. -/
structure EventObj where
  name : String
  status? : Option (List WatchCondition)
  data? : Option (List String)
  deriving DecidableEq, Repr

/-- A kubernetes watch event: `{'type': ..., 'object': ...}`. -/
structure WatchEvent where
  etype : String
  obj : EventObj
  deriving DecidableEq, Repr

/-- The shared loop shape `for event in watch: if cond(event): return True`
then `return False`. -/
def watchScan (cond : WatchEvent → Bool) : List WatchEvent → Bool
  | [] => false
  | e :: es => if cond e then true else watchScan cond es

/-- Condition of `import_utils.wait_until_resource_available`:
an `ADDED` event for the requested name. -/
def availableCond (name : String) (e : WatchEvent) : Bool :=
  e.etype == "ADDED" && e.obj.name == name

/-- Condition of `import_utils.wait_until_resource_status_available`:
`ADDED`/`MODIFIED` for the requested name with a `status` field. -/
def statusAvailableCond (name : String) (e : WatchEvent) : Bool :=
  (e.etype == "ADDED" || e.etype == "MODIFIED") && e.obj.name == name
    && e.obj.status?.isSome

/-- Condition of `import_utils.wait_until_secret_populated`:
`ADDED`/`MODIFIED` for the secret with both `crds.yaml` and
`import.yaml` among the `data` keys. -/
def secretPopulatedCond (secret_name : String) (e : WatchEvent) : Bool :=
  (e.etype == "ADDED" || e.etype == "MODIFIED") && e.obj.name == secret_name &&
    match e.obj.data? with
    | some ks => ks.any (fun k => k == "crds.yaml") && ks.any (fun k => k == "import.yaml")
    | none => false

/-- Condition of the inner watch of `addon_utils.wait_for_addon_available`:
`ADDED`/`MODIFIED` for the addon with a condition
`Available == 'True'` in its status. -/
def addonAvailableCond (addon_name : String) (e : WatchEvent) : Bool :=
  (e.etype == "ADDED" || e.etype == "MODIFIED") && e.obj.name == addon_name &&
    match e.obj.status? with
    | some conds => conds.any (fun c => c.ctype == "Available" && c.cstatus == "True")
    | none => false

/-- Condition of `addon_utils.wait_for_addon_not_available`:
a `DELETED` event for the addon. -/
def addonDeletedCond (addon_name : String) (e : WatchEvent) : Bool :=
  e.etype == "DELETED" && e.obj.name == addon_name

/-- `import_utils.wait_until_resource_available`. -/
def wait_until_resource_available (name : String) (events : List WatchEvent) : Bool :=
  watchScan (availableCond name) events

/-- `import_utils.wait_until_resource_status_available`. -/
def wait_until_resource_status_available (name : String) (events : List WatchEvent) : Bool :=
  watchScan (statusAvailableCond name) events

/-- `import_utils.wait_until_secret_populated`. -/
def wait_until_secret_populated (secret_name : String) (events : List WatchEvent) : Bool :=
  watchScan (secretPopulatedCond secret_name) events

/-- `addon_utils.wait_for_addon_not_available`. -/
def wait_for_addon_not_available (addon_name : String) (events : List WatchEvent) : Bool :=
  watchScan (addonDeletedCond addon_name) events

/-- `import_utils.wait_until_managedcluster_joined`, keeping the source's
`joined` flag structure: name/type matches without a
`ManagedClusterJoined` condition keep scanning. -/
def wait_until_managedcluster_joined (cluster_name : String) : List WatchEvent → Bool
  | [] => false
  | e :: es =>
    if (e.etype == "ADDED" || e.etype == "MODIFIED") && e.obj.name == cluster_name then
      match e.obj.status? with
      | some conds =>
        if conds.any (fun c => c.ctype == "ManagedClusterJoined") then true
        else wait_until_managedcluster_joined cluster_name es
      | none => wait_until_managedcluster_joined cluster_name es
    else wait_until_managedcluster_joined cluster_name es

/-- One watch call of `wait_for_addon_available`: its wall-clock duration
(at most the `timeout` handed to `watch`) and the events it delivered. -/
structure WatchBatch where
  dur : Nat
  events : List WatchEvent
  deriving DecidableEq, Repr

/-- The `while time.time() - start_time < timeout` loop of
`addon_utils.wait_for_addon_available`: while the elapsed time is below
the timeout, run one more full watch call.  Returns the result together
with the total elapsed time. -/
def addonAvailableLoop (addon_name : String) (timeout : Nat) :
    Nat → List WatchBatch → Bool × Nat
  | elapsed, [] => (false, elapsed)
  | elapsed, b :: bs =>
    if elapsed < timeout then
      if watchScan (addonAvailableCond addon_name) b.events then (true, elapsed + b.dur)
      else addonAvailableLoop addon_name timeout (elapsed + b.dur) bs
    else (false, elapsed)

/-- `addon_utils.wait_for_addon_available` with its re-watching outer loop. -/
def wait_for_addon_available (addon_name : String) (timeout : Nat)
    (batches : List WatchBatch) : Bool × Nat :=
  addonAvailableLoop addon_name timeout 0 batches

lemma watchScan_iff (cond : WatchEvent → Bool) (events : List WatchEvent) :
    watchScan cond events = true ↔ ∃ e ∈ events, cond e = true := by
  induction events with
  | nil => simp [watchScan]
  | cons e es ih =>
    rw [watchScan]
    by_cases h : cond e = true
    · simp [h]
    · rw [if_neg h, ih]
      constructor
      · rintro ⟨e', he', hc⟩
        exact ⟨e', List.mem_cons_of_mem _ he', hc⟩
      · rintro ⟨e', he', hc⟩
        rcases List.mem_cons.mp he' with rfl | he'
        · exact absurd hc h
        · exact ⟨e', he', hc⟩

lemma joined_iff (cluster_name : String) (events : List WatchEvent) :
    wait_until_managedcluster_joined cluster_name events = true ↔
      ∃ e ∈ events, (e.etype = "ADDED" ∨ e.etype = "MODIFIED") ∧
        e.obj.name = cluster_name ∧ ∃ conds, e.obj.status? = some conds ∧
          ∃ c ∈ conds, c.ctype = "ManagedClusterJoined" := by
  induction events with
  | nil => simp [wait_until_managedcluster_joined]
  | cons e es ih =>
    obtain ⟨et, nm, st, dt⟩ := e
    cases st with
    | none =>
      have hstep : wait_until_managedcluster_joined cluster_name (⟨et, nm, none, dt⟩ :: es) =
          (if ((et == "ADDED" || et == "MODIFIED") && (nm == cluster_name) : Bool) then
            wait_until_managedcluster_joined cluster_name es
          else wait_until_managedcluster_joined cluster_name es) := rfl
      rw [hstep, ite_self, ih]
      constructor
      · rintro ⟨e', he', h⟩
        exact ⟨e', List.mem_cons_of_mem _ he', h⟩
      · rintro ⟨e', he', h⟩
        rcases List.mem_cons.mp he' with rfl | he'
        · obtain ⟨_, _, conds, hconds, _⟩ := h
          cases hconds
        · exact ⟨e', he', h⟩
    | some conds =>
      have hstep : wait_until_managedcluster_joined cluster_name (⟨et, nm, some conds, dt⟩ :: es) =
          (if ((et == "ADDED" || et == "MODIFIED") && (nm == cluster_name) : Bool) then
            (if conds.any (fun c => c.ctype == "ManagedClusterJoined") then true
             else wait_until_managedcluster_joined cluster_name es)
          else wait_until_managedcluster_joined cluster_name es) := rfl
      rw [hstep]
      by_cases hm : ((et == "ADDED" || et == "MODIFIED") && (nm == cluster_name)) = true
      · rw [if_pos hm]
        simp only [Bool.and_eq_true, Bool.or_eq_true, beq_iff_eq] at hm
        by_cases hj : (conds.any (fun c => c.ctype == "ManagedClusterJoined")) = true
        · rw [if_pos hj]
          simp only [List.any_eq_true, beq_iff_eq] at hj
          obtain ⟨c, hc, hcj⟩ := hj
          simp only [true_iff]
          exact ⟨⟨et, nm, some conds, dt⟩, List.mem_cons_self _ es, hm.1, hm.2,
            conds, rfl, c, hc, hcj⟩
        · rw [if_neg hj, ih]
          constructor
          · rintro ⟨e', he', h⟩
            exact ⟨e', List.mem_cons_of_mem _ he', h⟩
          · rintro ⟨e', he', h⟩
            rcases List.mem_cons.mp he' with rfl | he'
            · obtain ⟨_, _, conds', hconds', c, hc, hcj⟩ := h
              cases hconds'
              exact absurd (List.any_eq_true.mpr ⟨c, hc, by simp [hcj]⟩) hj
            · exact ⟨e', he', h⟩
      · rw [if_neg hm, ih]
        simp only [Bool.and_eq_true, Bool.or_eq_true, beq_iff_eq] at hm
        constructor
        · rintro ⟨e', he', h⟩
          exact ⟨e', List.mem_cons_of_mem _ he', h⟩
        · rintro ⟨e', he', h⟩
          rcases List.mem_cons.mp he' with rfl | he'
          · exact absurd ⟨h.1, h.2.1⟩ hm
          · exact ⟨e', he', h⟩

/-- Total elapsed time of the re-watching loop: zero, or strictly less
than twice the timeout, provided every single watch call respects its
own timeout. -/
lemma addonAvailableLoop_bound (addon_name : String) (timeout : Nat) :
    ∀ (batches : List WatchBatch) (elapsed : Nat),
      (∀ b ∈ batches, b.dur ≤ timeout) →
      (elapsed = 0 ∨ elapsed < 2 * timeout) →
      ((addonAvailableLoop addon_name timeout elapsed batches).2 = 0 ∨
        (addonAvailableLoop addon_name timeout elapsed batches).2 < 2 * timeout) := by
  intro batches
  induction batches with
  | nil => intro elapsed _ h; exact h
  | cons b bs ih =>
    intro elapsed hdur h
    rw [addonAvailableLoop]
    by_cases ht : elapsed < timeout
    · rw [if_pos ht]
      have hb : b.dur ≤ timeout := hdur b (List.mem_cons_self b bs)
      have hlt : elapsed + b.dur < 2 * timeout := by omega
      by_cases hw : watchScan (addonAvailableCond addon_name) b.events = true
      · rw [if_pos hw]
        exact Or.inr hlt
      · rw [if_neg hw]
        exact ih (elapsed + b.dur) (fun b' hb' => hdur b' (List.mem_cons_of_mem _ hb'))
          (Or.inr hlt)
    · rw [if_neg ht]
      exact h

end Waits

namespace Waits

/-- A single watch pass of `wait_for_addon_available` (one iteration of
its outer `while` loop). -/
def addon_available_watch_pass (addon_name : String) (events : List WatchEvent) : Bool :=
  watchScan (addonAvailableCond addon_name) events

lemma availableCond_iff (name : String) (e : WatchEvent) :
    availableCond name e = true ↔ e.etype = "ADDED" ∧ e.obj.name = name := by
  simp [availableCond]

lemma statusAvailableCond_iff (name : String) (e : WatchEvent) :
    statusAvailableCond name e = true ↔
      (e.etype = "ADDED" ∨ e.etype = "MODIFIED") ∧ e.obj.name = name ∧
        e.obj.status?.isSome = true := by
  simp [statusAvailableCond, and_assoc]

lemma secretPopulatedCond_iff (name : String) (e : WatchEvent) :
    secretPopulatedCond name e = true ↔
      (e.etype = "ADDED" ∨ e.etype = "MODIFIED") ∧ e.obj.name = name ∧
        ∃ ks, e.obj.data? = some ks ∧ "crds.yaml" ∈ ks ∧ "import.yaml" ∈ ks := by
  obtain ⟨et, nm, st, dt⟩ := e
  cases dt with
  | none => simp [secretPopulatedCond]
  | some ks => simp [secretPopulatedCond, and_assoc, List.any_eq_true]

lemma addonAvailableCond_iff (name : String) (e : WatchEvent) :
    addonAvailableCond name e = true ↔
      (e.etype = "ADDED" ∨ e.etype = "MODIFIED") ∧ e.obj.name = name ∧
        ∃ conds, e.obj.status? = some conds ∧
          ∃ c ∈ conds, c.ctype = "Available" ∧ c.cstatus = "True" := by
  obtain ⟨et, nm, st, dt⟩ := e
  cases st with
  | none => simp [addonAvailableCond]
  | some conds => simp [addonAvailableCond, and_assoc, List.any_eq_true]

lemma addonDeletedCond_iff (name : String) (e : WatchEvent) :
    addonDeletedCond name e = true ↔ e.etype = "DELETED" ∧ e.obj.name = name := by
  simp [addonDeletedCond]

end Waits

/-- C5 counterexample: the claim's clause "the wait blocks at most for the
given timeout" fails for `wait_for_addon_available`.  With timeout 60,
a first watch call that delivers nothing and returns after 59 seconds
leaves the elapsed time below the timeout, so the loop starts another
full watch call of 60 seconds: the helper blocks 119 > 60 seconds even
though each individual watch call respected its own timeout
(59 ≤ 60 and 60 ≤ 60). -/
theorem C5_timeout_counterexample :
    Waits.wait_for_addon_available "addon" 60 [⟨59, []⟩, ⟨60, []⟩] = (false, 119) ∧
    59 ≤ 60 ∧ 60 ≤ 60 ∧ 60 < 119 := by
  exact ⟨rfl, by decide, by decide, by decide⟩

/-- C5 (amended): each wait helper terminates on a finite stream and
returns `True` exactly when the stream contains an event matching its
condition (event type, resource name, and the required status/data
fields), returning `False` otherwise; every single watch call blocks at
most its timeout, but `wait_for_addon_available` restarts the watch
whenever the elapsed time is still below the timeout, so it blocks
strictly less than twice the given timeout (not at most the timeout, as
originally claimed). -/
theorem C5_wait_helpers_amended :
    (∀ name events, Waits.wait_until_resource_available name events = true ↔
      ∃ e ∈ events, e.etype = "ADDED" ∧ e.obj.name = name) ∧
    (∀ name events, Waits.wait_until_resource_status_available name events = true ↔
      ∃ e ∈ events, (e.etype = "ADDED" ∨ e.etype = "MODIFIED") ∧ e.obj.name = name ∧
        e.obj.status?.isSome = true) ∧
    (∀ cluster events, Waits.wait_until_managedcluster_joined cluster events = true ↔
      ∃ e ∈ events, (e.etype = "ADDED" ∨ e.etype = "MODIFIED") ∧ e.obj.name = cluster ∧
        ∃ conds, e.obj.status? = some conds ∧
          ∃ c ∈ conds, c.ctype = "ManagedClusterJoined") ∧
    (∀ name events, Waits.wait_until_secret_populated name events = true ↔
      ∃ e ∈ events, (e.etype = "ADDED" ∨ e.etype = "MODIFIED") ∧ e.obj.name = name ∧
        ∃ ks, e.obj.data? = some ks ∧ "crds.yaml" ∈ ks ∧ "import.yaml" ∈ ks) ∧
    (∀ name events, Waits.wait_for_addon_not_available name events = true ↔
      ∃ e ∈ events, e.etype = "DELETED" ∧ e.obj.name = name) ∧
    (∀ name events, Waits.addon_available_watch_pass name events = true ↔
      ∃ e ∈ events, (e.etype = "ADDED" ∨ e.etype = "MODIFIED") ∧ e.obj.name = name ∧
        ∃ conds, e.obj.status? = some conds ∧
          ∃ c ∈ conds, c.ctype = "Available" ∧ c.cstatus = "True") ∧
    (∀ name timeout batches, (∀ b ∈ batches, b.dur ≤ timeout) →
      ((Waits.wait_for_addon_available name timeout batches).2 = 0 ∨
        (Waits.wait_for_addon_available name timeout batches).2 < 2 * timeout)) := by
  refine ⟨?_, ?_, ?_, ?_, ?_, ?_, ?_⟩
  · intro name events
    rw [Waits.wait_until_resource_available, Waits.watchScan_iff]
    exact exists_congr fun e => and_congr_right fun _ => Waits.availableCond_iff name e
  · intro name events
    rw [Waits.wait_until_resource_status_available, Waits.watchScan_iff]
    exact exists_congr fun e => and_congr_right fun _ => Waits.statusAvailableCond_iff name e
  · exact Waits.joined_iff
  · intro name events
    rw [Waits.wait_until_secret_populated, Waits.watchScan_iff]
    exact exists_congr fun e => and_congr_right fun _ => Waits.secretPopulatedCond_iff name e
  · intro name events
    rw [Waits.wait_for_addon_not_available, Waits.watchScan_iff]
    exact exists_congr fun e => and_congr_right fun _ => Waits.addonDeletedCond_iff name e
  · intro name events
    rw [Waits.addon_available_watch_pass, Waits.watchScan_iff]
    exact exists_congr fun e => and_congr_right fun _ => Waits.addonAvailableCond_iff name e
  · intro name timeout batches hdur
    exact Waits.addonAvailableLoop_bound name timeout batches 0 hdur (Or.inl rfl)

/-- Witness for C5: an `ADDED` event for the requested resource makes
`wait_until_resource_available` return `true`, and a single 10-second
watch call keeps `wait_for_addon_available` under twice its timeout. -/
theorem C5_wait_helpers_amended_witness :
    Waits.wait_until_resource_available "r" [⟨"ADDED", ⟨"r", none, none⟩⟩] = true ∧
    ((Waits.wait_for_addon_available "a" 60 [⟨10, []⟩]).2 = 0 ∨
      (Waits.wait_for_addon_available "a" 60 [⟨10, []⟩]).2 < 2 * 60) := by
  constructor
  · exact (C5_wait_helpers_amended.1 "r" _).mpr
      ⟨⟨"ADDED", ⟨"r", none, none⟩⟩, List.mem_singleton_self _, rfl, rfl⟩
  · exact C5_wait_helpers_amended.2.2.2.2.2.2 "a" 60 [⟨10, []⟩] (by decide)

namespace Retry

/-! ## Retry and backoff behaviour (claim C7)

`cluster_proxy.wait_for_proxy_route_available` and
`cluster_proxy_addon.wait_for_proxy_route_available` mount a
`requests` adapter configured with
`urllib3.util.retry.Retry(total=5, backoff_factor=timeout/max_retry/(max_retry+1),
status_forcelist=...)` and issue one `session.get(url)`.  urllib3 retries
a request whose status is in the forcelist, up to `total` retries, and
sleeps `backoff_factor * 2^(k-1)` before the k-th retry; exhaustion
surfaces as `RetryError` and the helper returns `False`.
`import_utils.dynamic_apply` issues a single `create` with no retry.
`resp i` is the HTTP status of the i-th attempt. -/

/-- `status_forcelist` of `cluster_proxy.wait_for_proxy_route_available`. -/
def cluster_proxy_forcelist : List Nat := [400, 500, 502, 503, 504]

/-- `status_forcelist` of `cluster_proxy_addon.wait_for_proxy_route_available`. -/
def cluster_proxy_addon_forcelist : List Nat := [500, 502, 503, 504]

/-- `backoff_factor = timeout / max_retry / (max_retry + 1)` with `max_retry = 5`. -/
def backoff_factor (timeout : ℚ) : ℚ := timeout / 5 / (5 + 1)

/-- urllib3's sleep before the k-th retry: `backoff_factor * 2^(k-1)`. -/
def retry_backoff_time (bf : ℚ) (k : Nat) : ℚ := bf * 2 ^ (k - 1)

/-- The urllib3 retry loop: with `fuel` attempts left, issue attempt `n`;
a forcelist status consumes one retry, any other status returns the
response.  Returns (request succeeded, number of attempts issued). -/
def retryLoop (forcelist : List Nat) (resp : Nat → Nat) : Nat → Nat → Bool × Nat
  | 0, n => (false, n)
  | fuel + 1, n =>
    if resp n ∈ forcelist then retryLoop forcelist resp fuel (n + 1) else (true, n + 1)

/-- `wait_for_proxy_route_available`: one initial attempt plus up to
`max_retry = 5` retries; `RetryError` (exhaustion) yields `False`. -/
def wait_for_proxy_route_available (forcelist : List Nat) (resp : Nat → Nat) : Bool × Nat :=
  retryLoop forcelist resp (5 + 1) 0

/-- Trace entries of `import_utils.dynamic_apply`. -/
inductive ApplyAction where
  | resourcesGet
  | create
  deriving DecidableEq, Repr

/-- `import_utils.dynamic_apply`: fail when `kubernetes` is missing,
otherwise resolve the API and call `create` exactly once — a
`DynamicApiError` propagates without any retry. -/
def dynamic_apply (k8sMissing : Bool) (createOk : Bool) :
    List ApplyAction × Except String Unit :=
  if k8sMissing then ([], .error "missing kubernetes")
  else ([.resourcesGet, .create], if createOk then .ok () else .error "DynamicApiError")

lemma retryLoop_attempts_le (forcelist : List Nat) (resp : Nat → Nat) :
    ∀ (fuel n : Nat), (retryLoop forcelist resp fuel n).2 ≤ n + fuel := by
  intro fuel
  induction fuel with
  | zero => intro n; simp [retryLoop]
  | succ fuel ih =>
    intro n
    rw [retryLoop]
    by_cases h : resp n ∈ forcelist
    · rw [if_pos h]
      have := ih (n + 1)
      omega
    · rw [if_neg h]
      simp

lemma retryLoop_retries_on_forcelist (forcelist : List Nat) (resp : Nat → Nat) :
    ∀ (fuel n i : Nat), n ≤ i → i + 1 < (retryLoop forcelist resp fuel n).2 →
      resp i ∈ forcelist := by
  intro fuel
  induction fuel with
  | zero =>
    intro n i hni hlt
    rw [retryLoop] at hlt
    omega
  | succ fuel ih =>
    intro n i hni hlt
    rw [retryLoop] at hlt
    by_cases h : resp n ∈ forcelist
    · rw [if_pos h] at hlt
      rcases Nat.eq_or_lt_of_le hni with rfl | hlt'
      · exact h
      · exact ih (n + 1) i hlt' hlt
    · rw [if_neg h] at hlt
      omega

end Retry

/-- C7 counterexample: the claim states that apart from watch timeouts the
only retry/backoff is on a single secret-fetch call and that "every
other failing Kubernetes or HTTP request is attempted exactly once per
helper invocation and is never retried".  But the proxy-route
availability HTTP GET of the `cluster_proxy` module retries failing
requests: with the first two attempts answered 500 and the third 200,
`wait_for_proxy_route_available` issues 3 attempts, not 1. -/
theorem C7_retry_counterexample :
    Retry.wait_for_proxy_route_available Retry.cluster_proxy_forcelist
      (fun i => if i < 2 then 500 else 200) = (true, 3) ∧ (3 : Nat) ≠ 1 := by
  exact ⟨rfl, by decide⟩

/-- C7 (amended): apart from watch-loop timeouts, the only retry/backoff
behaviour in the codebase is the urllib3 `Retry` configuration
(`total = 5`, exponential `backoff_factor = timeout/5/(5+1)`) that
`cluster_proxy` and `cluster_proxy_addon` apply to the proxy-route
availability HTTP GET — not a secret-fetch call (no secret-fetch backoff
exists in this revision).  That GET is attempted at most `1 + 5` times,
a retry happens only when the previous status is in the forcelist, the
sleep before consecutive retries doubles (exponential backoff, e.g.
factor 2 seconds for timeout 60), and Kubernetes API requests such as
`dynamic_apply`'s `create` are issued exactly once per helper
invocation, even when they fail. -/
theorem C7_retry_behaviour_amended :
    (∀ forcelist resp,
      (Retry.wait_for_proxy_route_available forcelist resp).2 ≤ 1 + 5) ∧
    (∀ forcelist resp i,
      i + 1 < (Retry.wait_for_proxy_route_available forcelist resp).2 →
        resp i ∈ forcelist) ∧
    (∀ t k, 1 ≤ k →
      Retry.retry_backoff_time (Retry.backoff_factor t) (k + 1) =
        2 * Retry.retry_backoff_time (Retry.backoff_factor t) k) ∧
    (Retry.backoff_factor 60 = 2) ∧
    (∀ createOk, ((Retry.dynamic_apply false createOk).1.count .create = 1 ∧
      (Retry.dynamic_apply false (!createOk)).1 = (Retry.dynamic_apply false createOk).1)) := by
  refine ⟨?_, ?_, ?_, ?_, ?_⟩
  · intro forcelist resp
    have := Retry.retryLoop_attempts_le forcelist resp (5 + 1) 0
    rw [Retry.wait_for_proxy_route_available]
    omega
  · intro forcelist resp i h
    exact Retry.retryLoop_retries_on_forcelist forcelist resp (5 + 1) 0 i (Nat.zero_le i) h
  · intro t k hk
    obtain ⟨m, rfl⟩ := Nat.exists_eq_add_of_le hk
    simp only [Retry.retry_backoff_time]
    rw [show 1 + m + 1 - 1 = m + 1 by omega, show 1 + m - 1 = m by omega, pow_succ]
    ring
  · norm_num [Retry.backoff_factor]
  · intro createOk
    exact ⟨rfl, rfl⟩

/-- Witness for C7: with every attempt answered 500, attempt 0 was indeed
retried because 500 is in the forcelist, and the backoff before the
second retry is twice the backoff before the first. -/
theorem C7_retry_behaviour_amended_witness :
    (500 : Nat) ∈ Retry.cluster_proxy_forcelist ∧
    Retry.retry_backoff_time (Retry.backoff_factor 60) 2 =
      2 * Retry.retry_backoff_time (Retry.backoff_factor 60) 1 :=
  ⟨C7_retry_behaviour_amended.2.1 Retry.cluster_proxy_forcelist (fun _ => 500) 0 (by decide),
   C7_retry_behaviour_amended.2.2.1 60 1 (le_refl 1)⟩

namespace PolicysetFs

/-! ## Temporary directory handling in the policyset module (claim C8)

`policyset.clone_repo` creates a temporary directory with
`tempfile.mkdtemp`, removes it with `shutil.rmtree` when cloning or
branch checkout raises, and otherwise returns its path;
`policyset.execute_module` (state `present`) removes the returned path
with `shutil.rmtree` after the ensure calls complete.  The embedding
records the filesystem actions performed by a run. -/

inductive FsAction where
  | mkdtemp
  | rmtree
  deriving DecidableEq, Repr

/-- How a `policyset` run ends. -/
inductive ModExit where
  | success
  | cloneFailed
  | ensureFailed
  deriving DecidableEq, Repr

/-- `policyset.clone_repo`: with a token but no `//` in the URL, fail
before any directory is created; a clone or checkout failure removes
the fresh directory and fails; otherwise the directory is kept and its
path returned (`some`). -/
def clone_repo (tokenPresent urlHasScheme cloneOk checkoutNeeded checkoutOk : Bool) :
    List FsAction × Option Unit :=
  if tokenPresent && !urlHasScheme then ([], none)
  else if !cloneOk then ([.mkdtemp, .rmtree], none)
  else if checkoutNeeded && !checkoutOk then ([.mkdtemp, .rmtree], none)
  else ([.mkdtemp], some ())

/-- The filesystem trace of `policyset.execute_module` with
`state=present`: no repository URL means no temporary directory at all;
otherwise `clone_repo` runs, and when it succeeds the ensure calls run
and `shutil.rmtree(repo_path)` follows them on the success path
(`ensuresOk` models all ensure calls completing without `fail_json`). -/
def execute_module_fs (useRepo tokenPresent urlHasScheme cloneOk checkoutNeeded checkoutOk
    ensuresOk : Bool) : List FsAction × ModExit :=
  if !useRepo then ([], if ensuresOk then .success else .ensureFailed)
  else
    match clone_repo tokenPresent urlHasScheme cloneOk checkoutNeeded checkoutOk with
    | (tr, none) => (tr, .cloneFailed)
    | (tr, some _) =>
      if ensuresOk then (tr ++ [.rmtree], .success) else (tr, .ensureFailed)

end PolicysetFs

/-- C8: on every run of the policyset module that either completes
successfully or fails while cloning the repository, each temporary
directory created by `tempfile.mkdtemp` in `clone_repo` has been removed
by a matching `shutil.rmtree` before the module exits (the `mkdtemp` and
`rmtree` counts of the filesystem trace agree). -/
theorem C8_tempdir_cleanup (useRepo tokenPresent urlHasScheme cloneOk checkoutNeeded
    checkoutOk ensuresOk : Bool) :
    ((PolicysetFs.execute_module_fs useRepo tokenPresent urlHasScheme cloneOk
        checkoutNeeded checkoutOk ensuresOk).2 = PolicysetFs.ModExit.success →
      (PolicysetFs.execute_module_fs useRepo tokenPresent urlHasScheme cloneOk
        checkoutNeeded checkoutOk ensuresOk).1.count PolicysetFs.FsAction.mkdtemp =
      (PolicysetFs.execute_module_fs useRepo tokenPresent urlHasScheme cloneOk
        checkoutNeeded checkoutOk ensuresOk).1.count PolicysetFs.FsAction.rmtree) ∧
    ((PolicysetFs.execute_module_fs useRepo tokenPresent urlHasScheme cloneOk
        checkoutNeeded checkoutOk ensuresOk).2 = PolicysetFs.ModExit.cloneFailed →
      (PolicysetFs.execute_module_fs useRepo tokenPresent urlHasScheme cloneOk
        checkoutNeeded checkoutOk ensuresOk).1.count PolicysetFs.FsAction.mkdtemp =
      (PolicysetFs.execute_module_fs useRepo tokenPresent urlHasScheme cloneOk
        checkoutNeeded checkoutOk ensuresOk).1.count PolicysetFs.FsAction.rmtree) := by
  revert useRepo tokenPresent urlHasScheme cloneOk checkoutNeeded checkoutOk ensuresOk
  decide

/-- Witness for C8: a successful run with a cloned repository creates and
removes one directory, and a failed clone likewise leaves none behind. -/
theorem C8_tempdir_cleanup_witness :
    (PolicysetFs.execute_module_fs true false true true false true true).1.count
        PolicysetFs.FsAction.mkdtemp =
      (PolicysetFs.execute_module_fs true false true true false true true).1.count
        PolicysetFs.FsAction.rmtree ∧
    (PolicysetFs.execute_module_fs true false true false false true true).1.count
        PolicysetFs.FsAction.mkdtemp =
      (PolicysetFs.execute_module_fs true false true false false true true).1.count
        PolicysetFs.FsAction.rmtree :=
  ⟨(C8_tempdir_cleanup true false true true false true true).1 rfl,
   (C8_tempdir_cleanup true false true false false true true).2 rfl⟩

namespace PolicysetDelete

/-! ## Deletion safety of the policyset helpers (claim C9)

`policyset.delete_policy`, `delete_placement_rule` and
`delete_placement_binding` fetch the resource, return `False` on
`NotFoundError`, and only call the API `delete` when
`resource.metadata.get('labels')` is truthy and
`resource.metadata.labels.get('ocmplus.cm.policyset/created')` is truthy
(Python truthiness: a missing/empty labels dict and a missing/empty label
value are falsy).  They return `True` exactly when the delete call's
status is `'Success'`. -/

def LABEL_KEY : String := "ocmplus.cm.policyset/created"

/-- `labels.get(key)` on the labels dictionary. -/
def labelsGet : List (String × String) → String → Option String
  | [], _ => none
  | (k, v) :: ls, key => if k = key then some v else labelsGet ls key

/-- The metadata the delete helpers inspect: the optional `labels` dict. -/
structure ResourceMeta where
  labels? : Option (List (String × String))
  deriving DecidableEq, Repr

/-- The guard `metadata.get('labels') and metadata.labels.get(LABEL_KEY)`:
a present non-empty labels dict whose `LABEL_KEY` value is a non-empty
string. -/
def labelTruthy (m : ResourceMeta) : Bool :=
  match m.labels? with
  | none => false
  | some l =>
    if l.isEmpty then false
    else
      match labelsGet l LABEL_KEY with
      | none => false
      | some v => !(v == "")

inductive DeleteAction where
  | delete
  deriving DecidableEq, Repr

/-- The shared body of the three delete helpers: `none` resource models
`NotFoundError`; a labeled resource is deleted and the helper returns
whether the delete status was `'Success'`; anything else returns `False`
without touching the cluster.  `deleteStatus` models the API's delete
response status. -/
def delete_labeled_resource (res : Option ResourceMeta) (deleteStatus : String) :
    List DeleteAction × Bool :=
  match res with
  | none => ([], false)
  | some m =>
    if labelTruthy m then ([.delete], deleteStatus == "Success")
    else ([], false)

/-- `policyset.delete_policy`. -/
def delete_policy (res : Option ResourceMeta) (deleteStatus : String) :
    List DeleteAction × Bool :=
  delete_labeled_resource res deleteStatus

/-- `policyset.delete_placement_rule`. -/
def delete_placement_rule (res : Option ResourceMeta) (deleteStatus : String) :
    List DeleteAction × Bool :=
  delete_labeled_resource res deleteStatus

/-- `policyset.delete_placement_binding`. -/
def delete_placement_binding (res : Option ResourceMeta) (deleteStatus : String) :
    List DeleteAction × Bool :=
  delete_labeled_resource res deleteStatus

lemma delete_labeled_resource_unlabeled (res : Option ResourceMeta) (st : String)
    (h : res = none ∨ ∃ m, res = some m ∧ labelTruthy m = false) :
    delete_labeled_resource res st = ([], false) := by
  rcases h with rfl | ⟨m, rfl, hm⟩
  · rfl
  · rw [delete_labeled_resource, if_neg (by simp [hm])]

lemma delete_labeled_resource_true (res : Option ResourceMeta) (st : String)
    (h : (delete_labeled_resource res st).2 = true) :
    ∃ m, res = some m ∧ labelTruthy m = true ∧
      (delete_labeled_resource res st).1 = [DeleteAction.delete] ∧ st = "Success" := by
  cases res with
  | none => exact absurd h (by simp [delete_labeled_resource])
  | some m =>
    by_cases hl : labelTruthy m = true
    · rw [delete_labeled_resource, if_pos hl] at h ⊢
      simp only at h
      exact ⟨m, rfl, hl, rfl, by simpa using h⟩
    · rw [delete_labeled_resource, if_neg hl] at h
      exact absurd h (by simp)

end PolicysetDelete

/-- C9: `delete_policy`, `delete_placement_rule` and
`delete_placement_binding` never issue a delete for a resource lacking a
truthy `ocmplus.cm.policyset/created` label: on a missing or unlabeled
resource they return `False` with an empty action trace, and they return
`True` only when a labeled resource was deleted and the delete status
was `'Success'`. -/
theorem C9_delete_only_labeled (res : Option PolicysetDelete.ResourceMeta) (st : String) :
    ((res = none ∨ ∃ m, res = some m ∧ PolicysetDelete.labelTruthy m = false) →
      PolicysetDelete.delete_policy res st = ([], false) ∧
      PolicysetDelete.delete_placement_rule res st = ([], false) ∧
      PolicysetDelete.delete_placement_binding res st = ([], false)) ∧
    ((PolicysetDelete.delete_policy res st).2 = true →
      ∃ m, res = some m ∧ PolicysetDelete.labelTruthy m = true ∧
        (PolicysetDelete.delete_policy res st).1 = [PolicysetDelete.DeleteAction.delete] ∧
        st = "Success") ∧
    ((PolicysetDelete.delete_placement_rule res st).2 = true →
      ∃ m, res = some m ∧ PolicysetDelete.labelTruthy m = true ∧
        (PolicysetDelete.delete_placement_rule res st).1 =
          [PolicysetDelete.DeleteAction.delete] ∧ st = "Success") ∧
    ((PolicysetDelete.delete_placement_binding res st).2 = true →
      ∃ m, res = some m ∧ PolicysetDelete.labelTruthy m = true ∧
        (PolicysetDelete.delete_placement_binding res st).1 =
          [PolicysetDelete.DeleteAction.delete] ∧ st = "Success") :=
  ⟨fun h => ⟨PolicysetDelete.delete_labeled_resource_unlabeled res st h,
      PolicysetDelete.delete_labeled_resource_unlabeled res st h,
      PolicysetDelete.delete_labeled_resource_unlabeled res st h⟩,
   fun h => PolicysetDelete.delete_labeled_resource_true res st h,
   fun h => PolicysetDelete.delete_labeled_resource_true res st h,
   fun h => PolicysetDelete.delete_labeled_resource_true res st h⟩

/-- Witness for C9: an unlabeled resource is left alone, and a labeled
resource deleted with status `'Success'` yields `True`. -/
theorem C9_delete_only_labeled_witness :
    PolicysetDelete.delete_policy (some ⟨some [("app", "x")]⟩) "Success" = ([], false) ∧
    ∃ m, (some ⟨some [(PolicysetDelete.LABEL_KEY, "true")]⟩ :
            Option PolicysetDelete.ResourceMeta) = some m ∧
      PolicysetDelete.labelTruthy m = true ∧
      (PolicysetDelete.delete_policy (some ⟨some [(PolicysetDelete.LABEL_KEY, "true")]⟩)
        "Success").1 = [PolicysetDelete.DeleteAction.delete] ∧
      ("Success" : String) = "Success" :=
  ⟨((C9_delete_only_labeled (some ⟨some [("app", "x")]⟩) "Success").1
      (Or.inr ⟨_, rfl, by decide⟩)).1,
   (C9_delete_only_labeled (some ⟨some [(PolicysetDelete.LABEL_KEY, "true")]⟩)
      "Success").2.1 (by decide)⟩

namespace Pool

/-! ## The policyset worker pool (claim C6)

`policyset.ensure_all_policies` spawns `max_policy_worker_threads`
`Policy` threads over a shared input queue and an output queue, enqueues
one work item per manifest file returned by `get_filepath` (with policy
name `'{policyset_name}-{filename}'`), blocks on `in_queue.join()`, and
drains the output queue.  Each `Policy.run` iteration takes one item,
calls `ensure_policy` and puts the resulting policy's `metadata.name`
on the output queue before `task_done()`.

The pool is embedded as a state machine over the two queues: a `grab`
step moves the head of the input queue to some idle worker (at most
`nthreads` items can be held at once), a `finish` step completes a held
item, appending its policy name to the output queue.  `join` returns
exactly in the states where the input queue is empty and no item is
still held.  Only the `metadata.name` component of the policies is
tracked, which is what `ensure_all_policies` returns. -/

/-- One entry of the `get_filepath` result. -/
structure FileItem where
  filename : String
  remediation_action : String
  compliance_type : String
  filepath : String
  deriving DecidableEq, Repr

/-- One work item placed on the input queue by `ensure_all_policies`. -/
structure WorkItem where
  policy_name : String
  remediation_action : String
  compliance_type : String
  filepath : String
  deriving DecidableEq, Repr

/-- The enqueue loop of `ensure_all_policies`: one item per
`get_filepath` entry, named `'{policyset_name}-{filename}'`. -/
def enqueueItems (policyset_name : String) (files : List FileItem) : List WorkItem :=
  files.map fun it =>
    ⟨policyset_name ++ "-" ++ it.filename, it.remediation_action, it.compliance_type,
      it.filepath⟩

/-- The policy object component tracked by the pool: `metadata.name`. -/
structure PolicyObj where
  name : String
  deriving DecidableEq, Repr

/-- `policyset.render_policy`, restricted to the tracked `metadata.name`
(which `render_policy` sets to the passed `name`). -/
def render_policy (name : String) : PolicyObj := ⟨name⟩

/-- `policyset.ensure_policy`, restricted to the tracked name: when the
policy already exists it is fetched by `name` (and possibly patched in
place), otherwise it is created from `render_policy name`; either way
the returned object carries the requested name. -/
def ensure_policy (existsAlready : Bool) (name : String) : PolicyObj :=
  if existsAlready then ⟨name⟩ else render_policy name

/-- What one `Policy.run` iteration appends to the output queue for an
item: the `metadata.name` of the `ensure_policy` result. -/
def processItem (existsAlready : Bool) (item : WorkItem) : String :=
  (ensure_policy existsAlready item.policy_name).name

/-- The names produced by processing the same items sequentially with
`ensure_policy` when every call succeeds, in input order (`hasPolicy`
tells whether a policy already exists on the hub). -/
def sequentialNames (hasPolicy : WorkItem → Bool) (items : List WorkItem) : List String :=
  items.map fun i => processItem (hasPolicy i) i

/-- What one `Policy.run` iteration contributes to the output queue:
the `ensure_policy` result name on success, and nothing when the `try`
body raises — the `except` branch warns and skips `out_queue.put`
(`task_done` still runs in the `finally`).  `raises` tells whether the
item's `ensure_policy` call raises. -/
def runName (hasPolicy raises : WorkItem → Bool) (i : WorkItem) : Option String :=
  if raises i then none else some (processItem (hasPolicy i) i)

/-- The names produced by processing the same items sequentially with
`ensure_policy` under the same outcomes: an item whose call raises is
warned about and contributes no name. -/
def successfulNames (hasPolicy raises : WorkItem → Bool) (items : List WorkItem) :
    List String :=
  items.filterMap (runName hasPolicy raises)

/-- The `for i in range(max_policy_worker_threads)` spawn loop. -/
def spawnThreads (nthreads : Nat) : List Unit :=
  (List.range nthreads).map fun _ => ()

/-- State of the two queues: pending input items, items grabbed but not
yet `task_done`, and the output queue contents. -/
structure PoolState where
  inq : List WorkItem
  held : List WorkItem
  outq : List String
  deriving DecidableEq, Repr

/-- Initial state of `ensure_all_policies` after the enqueue loop. -/
def initState (items : List WorkItem) : PoolState := ⟨items, [], []⟩

/-- `in_queue.join()` returns exactly when every enqueued item has been
`task_done`: nothing pending, nothing held. -/
def JoinReady (s : PoolState) : Prop := s.inq = [] ∧ s.held = []

/-- One scheduler step of the pool with `nthreads` workers: a worker
grabs the head of the input queue, or completes a held item — appending
the policy name to the output queue when `ensure_policy` succeeded, and
appending nothing when it raised (`Policy.run`'s `except` branch). -/
inductive PoolStep (nthreads : Nat) (hasPolicy raises : WorkItem → Bool) :
    PoolState → PoolState → Prop
  | grab (i : WorkItem) (rest held : List WorkItem) (outq : List String) :
      held.length < nthreads →
      PoolStep nthreads hasPolicy raises ⟨i :: rest, held, outq⟩ ⟨rest, held ++ [i], outq⟩
  | finishOk (i : WorkItem) (inq held : List WorkItem) (outq : List String) :
      i ∈ held → raises i = false →
      PoolStep nthreads hasPolicy raises ⟨inq, held, outq⟩
        ⟨inq, held.erase i, outq ++ [processItem (hasPolicy i) i]⟩
  | finishFail (i : WorkItem) (inq held : List WorkItem) (outq : List String) :
      i ∈ held → raises i = true →
      PoolStep nthreads hasPolicy raises ⟨inq, held, outq⟩ ⟨inq, held.erase i, outq⟩

/-- Executions of the pool. -/
def PoolReaches (nthreads : Nat) (hasPolicy raises : WorkItem → Bool) :
    PoolState → PoolState → Prop :=
  Relation.ReflTransGen (PoolStep nthreads hasPolicy raises)

/-- The conserved multiset of an execution, as a list up to permutation:
names the unprocessed items will contribute, followed by the output
queue. -/
def traceInv (hasPolicy raises : WorkItem → Bool) (s : PoolState) : List String :=
  (s.inq ++ s.held).filterMap (runName hasPolicy raises) ++ s.outq

lemma processItem_name (b : Bool) (i : WorkItem) : processItem b i = i.policy_name := by
  cases b <;> rfl

lemma step_perm {nthreads : Nat} {hasPolicy raises : WorkItem → Bool} {s s' : PoolState}
    (h : PoolStep nthreads hasPolicy raises s s') :
    (traceInv hasPolicy raises s').Perm (traceInv hasPolicy raises s) := by
  cases h with
  | grab i rest held outq hlen =>
    unfold traceInv
    refine List.Perm.append_right outq (List.Perm.filterMap _ ?_)
    rw [← List.append_assoc]
    exact List.perm_append_singleton i (rest ++ held)
  | finishOk i inq held outq hmem hro =>
    unfold traceInv
    have hheld : held.Perm (i :: held.erase i) := List.perm_cons_erase hmem
    have h3 : (inq ++ held).Perm (i :: (inq ++ held.erase i)) :=
      (List.Perm.append_left inq hheld).trans List.perm_middle
    have hcons : (i :: (inq ++ held.erase i)).filterMap (runName hasPolicy raises) =
        processItem (hasPolicy i) i ::
          (inq ++ held.erase i).filterMap (runName hasPolicy raises) := by
      rw [List.filterMap_cons, runName, if_neg (by simp [hro])]
    have h1 : ((inq ++ held.erase i).filterMap (runName hasPolicy raises) ++
        (outq ++ [processItem (hasPolicy i) i])).Perm
        (processItem (hasPolicy i) i ::
          ((inq ++ held.erase i).filterMap (runName hasPolicy raises) ++ outq)) := by
      rw [← List.append_assoc]
      exact List.perm_append_singleton _ _
    have h2 : ((inq ++ held).filterMap (runName hasPolicy raises) ++ outq).Perm
        (processItem (hasPolicy i) i ::
          ((inq ++ held.erase i).filterMap (runName hasPolicy raises) ++ outq)) := by
      have hp := List.Perm.append_right outq
        (List.Perm.filterMap (runName hasPolicy raises) h3)
      rwa [hcons] at hp
    exact h1.trans h2.symm
  | finishFail i inq held outq hmem hrt =>
    unfold traceInv
    have hheld : held.Perm (i :: held.erase i) := List.perm_cons_erase hmem
    have h3 : (inq ++ held).Perm (i :: (inq ++ held.erase i)) :=
      (List.Perm.append_left inq hheld).trans List.perm_middle
    have hcons : (i :: (inq ++ held.erase i)).filterMap (runName hasPolicy raises) =
        (inq ++ held.erase i).filterMap (runName hasPolicy raises) := by
      rw [List.filterMap_cons, runName, if_pos hrt]
    have h2 := List.Perm.append_right outq
      (List.Perm.filterMap (runName hasPolicy raises) h3)
    rw [hcons] at h2
    exact h2.symm

lemma reaches_perm {nthreads : Nat} {hasPolicy raises : WorkItem → Bool} {s s' : PoolState}
    (h : PoolReaches nthreads hasPolicy raises s s') :
    (traceInv hasPolicy raises s').Perm (traceInv hasPolicy raises s) := by
  induction h with
  | refl => exact List.Perm.refl _
  | tail _ hstep ih => exact (step_perm hstep).trans ih

/-- With at least one worker, the sequential schedule (grab one item,
complete it, repeat) is an execution of the pool ending in a joinable
state whose output queue lists the successfully processed policy names
in input order. -/
lemma sequential_execution {nthreads : Nat} (hn : 1 ≤ nthreads)
    (hasPolicy raises : WorkItem → Bool) :
    ∀ (items : List WorkItem) (outq : List String),
      PoolReaches nthreads hasPolicy raises ⟨items, [], outq⟩
        ⟨[], [], outq ++ successfulNames hasPolicy raises items⟩ := by
  intro items
  induction items with
  | nil =>
    intro outq
    rw [show successfulNames hasPolicy raises [] = [] from rfl, List.append_nil]
    exact Relation.ReflTransGen.refl
  | cons i rest ih =>
    intro outq
    have s1 : PoolStep nthreads hasPolicy raises ⟨i :: rest, [], outq⟩
        ⟨rest, [] ++ [i], outq⟩ :=
      PoolStep.grab i rest [] outq (by simpa using hn)
    cases hri : raises i with
    | false =>
      have s2 : PoolStep nthreads hasPolicy raises ⟨rest, [i], outq⟩
          ⟨rest, [i].erase i, outq ++ [processItem (hasPolicy i) i]⟩ :=
        PoolStep.finishOk i rest [i] outq (List.mem_singleton_self i) hri
      have h3 := ih (outq ++ [processItem (hasPolicy i) i])
      have hseq : (outq ++ [processItem (hasPolicy i) i]) ++
          successfulNames hasPolicy raises rest =
          outq ++ successfulNames hasPolicy raises (i :: rest) := by
        rw [List.append_assoc]
        congr 1
        rw [successfulNames, successfulNames, List.filterMap_cons, runName,
          if_neg (by simp [hri])]
        rfl
      rw [hseq] at h3
      refine Relation.ReflTransGen.head s1 (Relation.ReflTransGen.head ?_ h3)
      simpa [List.erase_cons_head] using s2
    | true =>
      have s2 : PoolStep nthreads hasPolicy raises ⟨rest, [i], outq⟩
          ⟨rest, [i].erase i, outq⟩ :=
        PoolStep.finishFail i rest [i] outq (List.mem_singleton_self i) hri
      have h3 := ih outq
      have hseq : outq ++ successfulNames hasPolicy raises rest =
          outq ++ successfulNames hasPolicy raises (i :: rest) := by
        congr 1
        rw [successfulNames, successfulNames, List.filterMap_cons, runName, if_pos hri]
      rw [hseq] at h3
      refine Relation.ReflTransGen.head s1 (Relation.ReflTransGen.head ?_ h3)
      simpa [List.erase_cons_head] using s2

end Pool

/-- C6 counterexample: when an item's `ensure_policy` raises,
`Policy.run` warns and skips `out_queue.put`, so the drained output
queue is not a permutation of the sequential `ensure_policy` name list.
With two files `a`, `b` under policyset `ps` and the `ps-a` item's
`ensure_policy` raising, the pool reaches a joinable state whose output
queue is `["ps-b"]`, which is not a permutation of
`["ps-a", "ps-b"]`. -/
theorem C6_worker_pool_counterexample :
    Pool.PoolReaches 5 (fun _ => false) (fun i => i.policy_name == "ps-a")
      (Pool.initState (Pool.enqueueItems "ps"
        [⟨"a", "inform", "musthave", "p/a.yaml"⟩,
         ⟨"b", "enforce", "mustnothave", "p/b.yaml"⟩]))
      ⟨[], [], ["ps-b"]⟩ ∧
    Pool.JoinReady ⟨[], [], ["ps-b"]⟩ ∧
    ¬ (["ps-b"].Perm (Pool.sequentialNames (fun _ => false)
        (Pool.enqueueItems "ps"
          [⟨"a", "inform", "musthave", "p/a.yaml"⟩,
           ⟨"b", "enforce", "mustnothave", "p/b.yaml"⟩]))) := by
  refine ⟨?_, ⟨rfl, rfl⟩, by decide⟩
  exact Pool.sequential_execution (show 1 ≤ 5 by decide) (fun _ => false)
    (fun i => i.policy_name == "ps-a")
    (Pool.enqueueItems "ps" [⟨"a", "inform", "musthave", "p/a.yaml"⟩,
      ⟨"b", "enforce", "mustnothave", "p/b.yaml"⟩]) []

/-- C6 (amended): for every `max_policy_worker_threads ≥ 1`,
`ensure_all_policies` spawns exactly that many worker threads, enqueues
one work item per `get_filepath` entry with policy name
`'{policyset_name}-{filename}'`, and at every state where
`in_queue.join()` can return (all items processed) the drained output
queue is, up to ordering, exactly the names of the items whose
`ensure_policy` call completed without raising — an item whose call
raises is warned about and contributes no name; at least one such
joinable execution exists, and when no call raises the successful names
are exactly the sequential `ensure_policy` name list. -/
theorem C6_worker_pool_amended (nthreads : Nat) (hn : 1 ≤ nthreads)
    (hasPolicy raises : Pool.WorkItem → Bool) (policyset_name : String)
    (files : List Pool.FileItem) :
    (Pool.spawnThreads nthreads).length = nthreads ∧
    (Pool.enqueueItems policyset_name files).map Pool.WorkItem.policy_name =
      files.map (fun f => policyset_name ++ "-" ++ f.filename) ∧
    (∀ s, Pool.PoolReaches nthreads hasPolicy raises
        (Pool.initState (Pool.enqueueItems policyset_name files)) s →
      Pool.JoinReady s →
      s.outq.Perm (Pool.successfulNames hasPolicy raises
        (Pool.enqueueItems policyset_name files))) ∧
    (∃ s, Pool.PoolReaches nthreads hasPolicy raises
        (Pool.initState (Pool.enqueueItems policyset_name files)) s ∧
      Pool.JoinReady s ∧
      s.outq = Pool.successfulNames hasPolicy raises
        (Pool.enqueueItems policyset_name files)) ∧
    (∀ items, Pool.successfulNames hasPolicy (fun _ => false) items =
      Pool.sequentialNames hasPolicy items) := by
  refine ⟨by simp [Pool.spawnThreads], by simp [Pool.enqueueItems], ?_, ?_, ?_⟩
  · intro s hreach hjoin
    have hperm := Pool.reaches_perm hreach
    obtain ⟨hinq, hheld⟩ := hjoin
    unfold Pool.traceInv at hperm
    rw [hinq, hheld] at hperm
    simp only [Pool.initState, List.append_nil] at hperm
    simpa [Pool.successfulNames] using hperm
  · refine ⟨⟨[], [], Pool.successfulNames hasPolicy raises
      (Pool.enqueueItems policyset_name files)⟩, ?_, ⟨rfl, rfl⟩, rfl⟩
    have h := Pool.sequential_execution hn hasPolicy raises
      (Pool.enqueueItems policyset_name files) []
    simpa using h
  · intro items
    have hrn : Pool.runName hasPolicy (fun _ => false) =
        some ∘ (fun i => Pool.processItem (hasPolicy i) i) := funext fun i => rfl
    rw [Pool.successfulNames, hrn, List.filterMap_eq_map]
    rfl

/-- Witness for C6 (amended): one manifest file under policyset `ps`,
five workers, nothing raising: an execution reaching join outputs the
successful-name list. -/
theorem C6_worker_pool_amended_witness :
    (Pool.spawnThreads 5).length = 5 ∧
    ∃ s, Pool.PoolReaches 5 (fun _ => false) (fun _ => false)
        (Pool.initState (Pool.enqueueItems "ps" [⟨"a", "inform", "musthave", "p/a.yaml"⟩])) s ∧
      Pool.JoinReady s ∧
      s.outq = Pool.successfulNames (fun _ => false) (fun _ => false)
        (Pool.enqueueItems "ps" [⟨"a", "inform", "musthave", "p/a.yaml"⟩]) := by
  have h := C6_worker_pool_amended 5 (by decide) (fun _ => false) (fun _ => false) "ps"
    [⟨"a", "inform", "musthave", "p/a.yaml"⟩]
  exact ⟨h.1, h.2.2.2.1⟩

namespace Rbac

/-! ## `managed_serviceaccount_rbac.get_rbac_resource_from_yaml` (claim C10)

The function folds over the parsed YAML documents.  Per document it
derives `kind` (`"UNKNOWN"` for non-dicts), warns and skips documents
whose kind is not one of the four RBAC kinds, whose `metadata` is
missing/None, whose `metadata.name` is the empty string, whose
`namespace` is inconsistent with the kind (`'Cluster' in kind` holds
exactly for the two Cluster kinds), or whose `roleRef` (for the two
binding kinds, `'RoleBinding' in kind`) is missing or lacks
`kind`/`name`; calling `.get` on a non-dict `metadata`/`roleRef` raises
an uncaught `AttributeError`.  Surviving documents are stored in the
per-kind dictionary under the key `f"{namespace}/{name}"`, and a second
resource with the same key fails the module (`fail_json`).  After the
loop, an entirely empty result also fails the module.

The per-document decision tree is `classifyDoc`; `step` applies its
outcome to the accumulated state, exactly as the loop body does. -/

/-- The four keys of the `rbac_resources` dictionary. -/
def rbacKinds : List String := ["Role", "ClusterRole", "RoleBinding", "ClusterRoleBinding"]

mutual

/-- Python `repr` of a value (used inside container renderings):
strings are quoted, `None`/booleans/integers render as themselves,
dictionaries and lists render their entries recursively with
comma-space separators, preserving insertion order. -/
def pyRepr : PyVal → String
  | .vnone => "None"
  | .vbool b => if b then "True" else "False"
  | .vint n => toString n
  | .vstr s => "'" ++ s ++ "'"
  | .vdict es => "\x7b" ++ pyReprEntries es ++ "\x7d"
  | .vlist l => "[" ++ pyReprList l ++ "]"

/-- `repr` of a dictionary body: `'key': value` entries joined by `, `. -/
def pyReprEntries : List (String × PyVal) → String
  | [] => ""
  | [(k, v)] => "'" ++ k ++ "': " ++ pyRepr v
  | (k, v) :: rest => "'" ++ k ++ "': " ++ pyRepr v ++ ", " ++ pyReprEntries rest

/-- `repr` of a list body: values joined by `, `. -/
def pyReprList : List PyVal → String
  | [] => ""
  | [v] => pyRepr v
  | v :: rest => pyRepr v ++ ", " ++ pyReprList rest

end

/-- Python `f"{value}"` rendering (`str`): strings render verbatim and
everything else by its `repr`, so distinct container values keep
distinct keys exactly as in the program's f-string. -/
def pyStr : PyVal → String
  | .vstr s => s
  | v => pyRepr v

/-- Python `value == ""`: true exactly for the empty string. -/
def isEmptyStr : PyVal → Bool
  | .vstr s => s = ""
  | _ => false

/-- The `rbac_resources` accumulator: one dictionary per RBAC kind plus
the number of warned-and-skipped documents. -/
structure RbacState where
  role : List (String × PyVal)
  clusterRole : List (String × PyVal)
  roleBinding : List (String × PyVal)
  clusterRoleBinding : List (String × PyVal)
  warnings : Nat

/-- `{'Role': {}, 'ClusterRole': {}, 'RoleBinding': {}, 'ClusterRoleBinding': {}}`. -/
def initRbacState : RbacState := ⟨[], [], [], [], 0⟩

/-- `rbac_resources[kind]`. -/
def getKindMap (st : RbacState) (kind : String) : List (String × PyVal) :=
  if kind = "Role" then st.role
  else if kind = "ClusterRole" then st.clusterRole
  else if kind = "RoleBinding" then st.roleBinding
  else st.clusterRoleBinding

/-- `rbac_resources[kind] = m`. -/
def setKindMap (st : RbacState) (kind : String) (m : List (String × PyVal)) : RbacState :=
  if kind = "Role" then { st with role := m }
  else if kind = "ClusterRole" then { st with clusterRole := m }
  else if kind = "RoleBinding" then { st with roleBinding := m }
  else { st with clusterRoleBinding := m }

/-- How `get_rbac_resource_from_yaml` can fail: an uncaught
`AttributeError` (`.get` on a non-mapping), an uncaught `TypeError`
(unhashable `kind` in the `in rbac_resources.keys()` test), or
`fail_json` on a duplicate key / an empty result. -/
inductive RbacErr where
  | attrError
  | typeError
  | failDuplicate
  | failEmpty
  deriving DecidableEq, Repr

/-- Outcome of the per-document checks: warned-and-skipped, an uncaught
exception (`AttributeError` or `TypeError`), or a valid resource of
`kind` stored under key `nn`. -/
inductive DocClass where
  | invalid
  | crash (e : RbacErr)
  | valid (kind : String) (nn : String)
  deriving DecidableEq, Repr

/-- Whether the classification is an uncaught exception. -/
def DocClass.isCrash : DocClass → Bool
  | .crash _ => true
  | _ => false

/-- The source's check chain for a document whose `kind` is one of the
four RBAC kinds (`'Cluster' in kind`/`'RoleBinding' in kind` are encoded
by the matching kind pairs, which is exact on `rbacKinds`). -/
def classifyKind (kind : String) (es : List (String × PyVal)) : DocClass :=
  match dictGet es "metadata" with
  | none => .invalid
  | some .vnone => .invalid
  | some (.vdict meta) =>
    if isEmptyStr ((dictGet meta "name").getD (.vstr "")) then .invalid
    else if (kind == "ClusterRole" || kind == "ClusterRoleBinding") &&
        !isEmptyStr ((dictGet meta "namespace").getD (.vstr "")) then .invalid
    else if !(kind == "ClusterRole" || kind == "ClusterRoleBinding") &&
        isEmptyStr ((dictGet meta "namespace").getD (.vstr "")) then .invalid
    else if kind == "RoleBinding" || kind == "ClusterRoleBinding" then
      match dictGet es "roleRef" with
      | none => .invalid
      | some .vnone => .invalid
      | some (.vdict rr) =>
        if isEmptyStr ((dictGet rr "kind").getD (.vstr "")) then .invalid
        else if isEmptyStr ((dictGet rr "name").getD (.vstr "")) then .invalid
        else .valid kind (pyStr ((dictGet meta "namespace").getD (.vstr "")) ++ "/" ++
          pyStr ((dictGet meta "name").getD (.vstr "")))
      | some _ => .crash .attrError
    else .valid kind (pyStr ((dictGet meta "namespace").getD (.vstr "")) ++ "/" ++
      pyStr ((dictGet meta "name").getD (.vstr "")))
  | some _ => .crash .attrError

/-- The whole per-document decision: non-dict documents get kind
`"UNKNOWN"`, a hashable kind outside `rbacKinds` is warned and skipped,
and an unhashable (dict/list) kind makes the
`kind not in rbac_resources.keys()` membership test raise an uncaught
`TypeError`. -/
def classifyDoc (resource : PyVal) : DocClass :=
  match resource with
  | .vdict es =>
    match dictGet es "kind" with
    | some (.vstr kind) => if kind ∈ rbacKinds then classifyKind kind es else .invalid
    | some (.vdict _) => .crash .typeError
    | some (.vlist _) => .crash .typeError
    | _ => .invalid
  | _ => .invalid

/-- One iteration of the loop body on the accumulated state: warn-skips
count a warning, a crash aborts, and a valid resource is stored under
its `namespace/name` key unless that key is already taken
(`fail_json` on a duplicate). -/
def step (st : RbacState) (resource : PyVal) : Except RbacErr RbacState :=
  match classifyDoc resource with
  | .invalid => .ok { st with warnings := st.warnings + 1 }
  | .crash e => .error e
  | .valid kind nn =>
    match dictGet (getKindMap st kind) nn with
    | some _ => .error .failDuplicate
    | none => .ok (setKindMap st kind (getKindMap st kind ++ [(nn, resource)]))

/-- The `for resource in yaml_resources` loop. -/
def runDocs : RbacState → List PyVal → Except RbacErr RbacState
  | st, [] => .ok st
  | st, d :: ds =>
    match step st d with
    | .error e => .error e
    | .ok st' => runDocs st' ds

/-- The final emptiness test against the all-empty dictionary. -/
def allEmpty (st : RbacState) : Bool :=
  st.role.isEmpty && st.clusterRole.isEmpty && st.roleBinding.isEmpty &&
    st.clusterRoleBinding.isEmpty

/-- `managed_serviceaccount_rbac.get_rbac_resource_from_yaml`. -/
def get_rbac_resource_from_yaml (docs : List PyVal) : Except RbacErr RbacState :=
  match runDocs initRbacState docs with
  | .error e => .error e
  | .ok st => if allEmpty st then .error .failEmpty else .ok st

end Rbac

namespace Rbac

lemma getKindMap_role (st : RbacState) : getKindMap st "Role" = st.role := by
  rw [getKindMap, if_pos rfl]

lemma getKindMap_clusterRole (st : RbacState) : getKindMap st "ClusterRole" = st.clusterRole := by
  rw [getKindMap, if_neg (by decide), if_pos rfl]

lemma getKindMap_roleBinding (st : RbacState) : getKindMap st "RoleBinding" = st.roleBinding := by
  rw [getKindMap, if_neg (by decide), if_neg (by decide), if_pos rfl]

lemma getKindMap_clusterRoleBinding (st : RbacState) :
    getKindMap st "ClusterRoleBinding" = st.clusterRoleBinding := by
  rw [getKindMap, if_neg (by decide), if_neg (by decide), if_neg (by decide)]

lemma setKindMap_role (st : RbacState) (m : List (String × PyVal)) :
    setKindMap st "Role" m = { st with role := m } := by
  rw [setKindMap, if_pos rfl]

lemma setKindMap_clusterRole (st : RbacState) (m : List (String × PyVal)) :
    setKindMap st "ClusterRole" m = { st with clusterRole := m } := by
  rw [setKindMap, if_neg (by decide), if_pos rfl]

lemma setKindMap_roleBinding (st : RbacState) (m : List (String × PyVal)) :
    setKindMap st "RoleBinding" m = { st with roleBinding := m } := by
  rw [setKindMap, if_neg (by decide), if_neg (by decide), if_pos rfl]

lemma setKindMap_clusterRoleBinding (st : RbacState) (m : List (String × PyVal)) :
    setKindMap st "ClusterRoleBinding" m = { st with clusterRoleBinding := m } := by
  rw [setKindMap, if_neg (by decide), if_neg (by decide), if_neg (by decide)]

lemma getKindMap_warnings (st : RbacState) (n : Nat) (k : String) :
    getKindMap { st with warnings := n } k = getKindMap st k := by
  unfold getKindMap
  split_ifs <;> rfl

lemma setKindMap_warnings (st : RbacState) (k : String) (m : List (String × PyVal)) :
    (setKindMap st k m).warnings = st.warnings := by
  unfold setKindMap
  split_ifs <;> rfl

lemma getKindMap_setKindMap_self (st : RbacState) (k : String) (m : List (String × PyVal)) :
    getKindMap (setKindMap st k m) k = m := by
  unfold getKindMap setKindMap
  split_ifs <;> rfl

lemma getKindMap_setKindMap_other (st : RbacState) (k k' : String)
    (m : List (String × PyVal)) (hk : k ∈ rbacKinds) (hk' : k' ∈ rbacKinds)
    (hne : k' ≠ k) : getKindMap (setKindMap st k m) k' = getKindMap st k' := by
  simp only [rbacKinds, List.mem_cons, List.mem_singleton, List.not_mem_nil, or_false] at hk hk'
  rcases hk with rfl | rfl | rfl | rfl <;> rcases hk' with rfl | rfl | rfl | rfl <;>
    first
    | exact absurd rfl hne
    | simp [getKindMap_role, getKindMap_clusterRole, getKindMap_roleBinding,
        getKindMap_clusterRoleBinding, setKindMap_role, setKindMap_clusterRole,
        setKindMap_roleBinding, setKindMap_clusterRoleBinding]

lemma getKindMap_init (k : String) : getKindMap initRbacState k = [] := by
  unfold getKindMap initRbacState
  split_ifs <;> rfl

lemma dictGet_append (l1 l2 : List (String × PyVal)) (key : String) :
    dictGet (l1 ++ l2) key =
      match dictGet l1 key with
      | some v => some v
      | none => dictGet l2 key := by
  induction l1 with
  | nil => rfl
  | cons p l1 ih =>
    obtain ⟨k, v⟩ := p
    rw [List.cons_append, dictGet, dictGet]
    by_cases h : k = key
    · rw [if_pos h, if_pos h]
    · rw [if_neg h, if_neg h, ih]

lemma dictGet_append_some (l1 l2 : List (String × PyVal)) (key : String) (v : PyVal)
    (h : dictGet l1 key = some v) : dictGet (l1 ++ l2) key = some v := by
  rw [dictGet_append, h]

lemma dictGet_append_single_self (l : List (String × PyVal)) (key : String) (d : PyVal)
    (h : dictGet l key = none) : dictGet (l ++ [(key, d)]) key = some d := by
  rw [dictGet_append, h, dictGet, if_pos rfl]

lemma dictGet_append_single (l : List (String × PyVal)) (key key' : String) (d : PyVal) :
    dictGet (l ++ [(key, d)]) key' =
      match dictGet l key' with
      | some v => some v
      | none => if key = key' then some d else none := by
  rw [dictGet_append]
  cases dictGet l key' with
  | some v => rfl
  | none =>
    simp only
    rw [dictGet]
    by_cases h : key = key'
    · rw [if_pos h, if_pos h]
    · rw [if_neg h, if_neg h]
      rfl

/-- The `valid` kind produced by `classifyKind`, if any. -/
def DocClass.kindOf : DocClass → Option String
  | .valid k _ => some k
  | _ => none

lemma classifyKind_kindOf (kind : String) (es : List (String × PyVal)) :
    DocClass.kindOf (classifyKind kind es) = none ∨
      DocClass.kindOf (classifyKind kind es) = some kind := by
  unfold classifyKind
  repeat' split
  all_goals simp [DocClass.kindOf]

lemma classifyKind_valid_eq (kind : String) (es : List (String × PyVal)) (k nn : String)
    (h : classifyKind kind es = .valid k nn) : k = kind := by
  have hko := classifyKind_kindOf kind es
  rw [h] at hko
  rcases hko with h' | h'
  · exact absurd h' (by simp [DocClass.kindOf])
  · simpa [DocClass.kindOf] using h'

lemma classifyDoc_valid_kind (d : PyVal) (k nn : String)
    (h : classifyDoc d = .valid k nn) : k ∈ rbacKinds := by
  cases d with
  | vdict es =>
    rw [show classifyDoc (.vdict es) =
        (match dictGet es "kind" with
         | some (.vstr kind) => if kind ∈ rbacKinds then classifyKind kind es else .invalid
         | some (.vdict _) => .crash .typeError
         | some (.vlist _) => .crash .typeError
         | _ => .invalid) from rfl] at h
    cases hk : dictGet es "kind" with
    | none =>
      rw [hk] at h
      have h' : DocClass.invalid = DocClass.valid k nn := h
      cases h'
    | some v =>
      rw [hk] at h
      cases v with
      | vstr kind =>
        have h' : (if kind ∈ rbacKinds then classifyKind kind es else DocClass.invalid) =
            DocClass.valid k nn := h
        by_cases hmem : kind ∈ rbacKinds
        · rw [if_pos hmem] at h'
          rw [classifyKind_valid_eq kind es k nn h']
          exact hmem
        · rw [if_neg hmem] at h'
          cases h'
      | vnone =>
        have h' : DocClass.invalid = DocClass.valid k nn := h
        cases h'
      | vbool b =>
        have h' : DocClass.invalid = DocClass.valid k nn := h
        cases h'
      | vint n =>
        have h' : DocClass.invalid = DocClass.valid k nn := h
        cases h'
      | vdict es' =>
        have h' : DocClass.crash RbacErr.typeError = DocClass.valid k nn := h
        cases h'
      | vlist l =>
        have h' : DocClass.crash RbacErr.typeError = DocClass.valid k nn := h
        cases h'
  | vnone =>
    have h' : DocClass.invalid = DocClass.valid k nn := h
    cases h'
  | vbool b =>
    have h' : DocClass.invalid = DocClass.valid k nn := h
    cases h'
  | vint n =>
    have h' : DocClass.invalid = DocClass.valid k nn := h
    cases h'
  | vstr s =>
    have h' : DocClass.invalid = DocClass.valid k nn := h
    cases h'
  | vlist l =>
    have h' : DocClass.invalid = DocClass.valid k nn := h
    cases h'

end Rbac

namespace Rbac

/-- Invariant of the loop: after processing `processed`, (1) every stored
entry comes from a processed document classified valid for that kind and
key, (2) every processed valid document is stored under its key, and
(3) the warning count equals the number of skipped documents. -/
def StInv (processed : List PyVal) (st : RbacState) : Prop :=
  (∀ k, k ∈ rbacKinds → ∀ nn d, dictGet (getKindMap st k) nn = some d →
    d ∈ processed ∧ classifyDoc d = .valid k nn) ∧
  (∀ d, d ∈ processed → ∀ k nn, classifyDoc d = .valid k nn →
    dictGet (getKindMap st k) nn = some d) ∧
  st.warnings = (processed.filter fun d => decide (classifyDoc d = .invalid)).length

lemma StInv_init : StInv [] initRbacState := by
  refine ⟨?_, ?_, rfl⟩
  · intro k _ nn d h
    rw [getKindMap_init] at h
    cases h
  · intro d hd
    exact absurd hd (List.not_mem_nil d)

lemma step_invalid (st : RbacState) (d : PyVal) (h : classifyDoc d = .invalid) :
    step st d = .ok { st with warnings := st.warnings + 1 } := by
  rw [step, h]

lemma step_crash (st : RbacState) (d : PyVal) (e : RbacErr)
    (h : classifyDoc d = .crash e) : step st d = .error e := by
  rw [step, h]

lemma step_valid_red (st : RbacState) (d : PyVal) (k nn : String)
    (h : classifyDoc d = .valid k nn) :
    step st d =
      match dictGet (getKindMap st k) nn with
      | some _ => Except.error RbacErr.failDuplicate
      | none => Except.ok (setKindMap st k (getKindMap st k ++ [(nn, d)])) := by
  rw [step, h]

lemma step_valid_dup (st : RbacState) (d : PyVal) (k nn : String) (v : PyVal)
    (h : classifyDoc d = .valid k nn) (hl : dictGet (getKindMap st k) nn = some v) :
    step st d = .error .failDuplicate := by
  rw [step_valid_red st d k nn h, hl]

lemma step_valid_store (st : RbacState) (d : PyVal) (k nn : String)
    (h : classifyDoc d = .valid k nn) (hl : dictGet (getKindMap st k) nn = none) :
    step st d = .ok (setKindMap st k (getKindMap st k ++ [(nn, d)])) := by
  rw [step_valid_red st d k nn h, hl]

lemma step_StInv_invalid (processed : List PyVal) (st : RbacState) (d : PyVal)
    (hinv : StInv processed st) (hc : classifyDoc d = .invalid) :
    StInv (processed ++ [d]) { st with warnings := st.warnings + 1 } := by
  obtain ⟨h1, h2, h3⟩ := hinv
  refine ⟨?_, ?_, ?_⟩
  · intro k hk nn dd hget
    rw [getKindMap_warnings] at hget
    obtain ⟨hm, hcl⟩ := h1 k hk nn dd hget
    exact ⟨List.mem_append_left _ hm, hcl⟩
  · intro dd hdd k nn hcl
    rw [getKindMap_warnings]
    rcases List.mem_append.mp hdd with hm | hm
    · exact h2 dd hm k nn hcl
    · rw [List.mem_singleton] at hm
      subst hm
      rw [hc] at hcl
      cases hcl
  · simp only [List.filter_append, List.length_append, ← h3, List.filter_cons, hc]
    simp

lemma step_StInv_valid (processed : List PyVal) (st : RbacState) (d : PyVal) (k nn : String)
    (hinv : StInv processed st) (hc : classifyDoc d = .valid k nn)
    (hl : dictGet (getKindMap st k) nn = none) :
    StInv (processed ++ [d]) (setKindMap st k (getKindMap st k ++ [(nn, d)])) := by
  have hk : k ∈ rbacKinds := classifyDoc_valid_kind d k nn hc
  obtain ⟨h1, h2, h3⟩ := hinv
  refine ⟨?_, ?_, ?_⟩
  · intro k' hk' nn' dd hget
    by_cases hkk : k' = k
    · subst hkk
      rw [getKindMap_setKindMap_self, dictGet_append_single] at hget
      cases ho : dictGet (getKindMap st k') nn' with
      | some v =>
        rw [ho] at hget
        have hget' : some v = some dd := hget
        cases hget'
        obtain ⟨hm, hcl⟩ := h1 k' hk' nn' dd ho
        exact ⟨List.mem_append_left _ hm, hcl⟩
      | none =>
        rw [ho] at hget
        have hget' : (if nn = nn' then some d else none) = some dd := hget
        by_cases hnn : nn = nn'
        · rw [if_pos hnn] at hget'
          cases hget'
          subst hnn
          exact ⟨List.mem_append_right _ (List.mem_singleton_self d), hc⟩
        · rw [if_neg hnn] at hget'
          cases hget'
    · rw [getKindMap_setKindMap_other st k k' _ hk hk' hkk] at hget
      obtain ⟨hm, hcl⟩ := h1 k' hk' nn' dd hget
      exact ⟨List.mem_append_left _ hm, hcl⟩
  · intro dd hdd k' nn' hcl
    rcases List.mem_append.mp hdd with hm | hm
    · have hget := h2 dd hm k' nn' hcl
      have hk'' : k' ∈ rbacKinds := classifyDoc_valid_kind dd k' nn' hcl
      by_cases hkk : k' = k
      · subst hkk
        rw [getKindMap_setKindMap_self]
        exact dictGet_append_some _ _ _ _ hget
      · rw [getKindMap_setKindMap_other st k k' _ hk hk'' hkk]
        exact hget
    · rw [List.mem_singleton] at hm
      subst hm
      rw [hc] at hcl
      cases hcl
      rw [getKindMap_setKindMap_self]
      exact dictGet_append_single_self _ _ _ hl
  · rw [setKindMap_warnings]
    simp only [List.filter_append, List.length_append, ← h3, List.filter_cons, hc]
    simp

lemma runDocs_StInv : ∀ (docs : List PyVal) (st : RbacState) (processed : List PyVal)
    (st' : RbacState), StInv processed st → runDocs st docs = .ok st' →
    StInv (processed ++ docs) st' := by
  intro docs
  induction docs with
  | nil =>
    intro st processed st' hinv h
    have h' : (Except.ok st : Except RbacErr RbacState) = .ok st' := h
    cases h'
    simpa using hinv
  | cons d ds ih =>
    intro st processed st' hinv h
    rw [runDocs] at h
    cases hc : classifyDoc d with
    | invalid =>
      rw [step_invalid st d hc] at h
      have h' : runDocs { st with warnings := st.warnings + 1 } ds = .ok st' := h
      have hres := ih _ (processed ++ [d]) st' (step_StInv_invalid processed st d hinv hc) h'
      rwa [List.append_assoc, List.singleton_append] at hres
    | crash e0 =>
      rw [step_crash st d e0 hc] at h
      have h' : (Except.error e0 : Except RbacErr RbacState) = .ok st' := h
      cases h'
    | valid k nn =>
      cases hl : dictGet (getKindMap st k) nn with
      | some v =>
        rw [step_valid_dup st d k nn v hc hl] at h
        have h' : (Except.error RbacErr.failDuplicate : Except RbacErr RbacState) = .ok st' := h
        cases h'
      | none =>
        rw [step_valid_store st d k nn hc hl] at h
        have h' : runDocs (setKindMap st k (getKindMap st k ++ [(nn, d)])) ds = .ok st' := h
        have hres := ih _ (processed ++ [d]) st'
          (step_StInv_valid processed st d k nn hinv hc hl) h'
        rwa [List.append_assoc, List.singleton_append] at hres

/-- On documents that never crash, the loop's only possible error is the
duplicate `fail_json`. -/
lemma runDocs_good_dup : ∀ (docs : List PyVal) (st : RbacState) (e : RbacErr),
    (∀ d ∈ docs, (classifyDoc d).isCrash = false) →
    runDocs st docs = .error e → e = .failDuplicate := by
  intro docs
  induction docs with
  | nil =>
    intro st e _ h
    have h' : (Except.ok st : Except RbacErr RbacState) = .error e := h
    cases h'
  | cons d ds ih =>
    intro st e hgood h
    rw [runDocs] at h
    cases hc : classifyDoc d with
    | invalid =>
      rw [step_invalid st d hc] at h
      exact ih _ e (fun d' hd' => hgood d' (List.mem_cons_of_mem _ hd')) h
    | crash e0 =>
      have hg := hgood d (List.mem_cons_self d ds)
      rw [hc] at hg
      exact absurd hg (by simp [DocClass.isCrash])
    | valid k nn =>
      cases hl : dictGet (getKindMap st k) nn with
      | some v =>
        rw [step_valid_dup st d k nn v hc hl] at h
        have h' : (Except.error RbacErr.failDuplicate : Except RbacErr RbacState) =
          .error e := h
        exact (Except.error.inj h').symm
      | none =>
        rw [step_valid_store st d k nn hc hl] at h
        exact ih _ e (fun d' hd' => hgood d' (List.mem_cons_of_mem _ hd')) h

lemma runDocs_append : ∀ (xs : List PyVal) (st : RbacState) (ys : List PyVal),
    runDocs st (xs ++ ys) =
      match runDocs st xs with
      | .error e => .error e
      | .ok st' => runDocs st' ys := by
  intro xs
  induction xs with
  | nil => intro st ys; rfl
  | cons d ds ih =>
    intro st ys
    cases hs : step st d with
    | error e =>
      have hl : runDocs st (d :: (ds ++ ys)) = .error e := by rw [runDocs, hs]
      have hr : runDocs st (d :: ds) = .error e := by rw [runDocs, hs]
      rw [List.cons_append, hl, hr]
    | ok st1 =>
      have hl : runDocs st (d :: (ds ++ ys)) = runDocs st1 (ds ++ ys) := by rw [runDocs, hs]
      have hr : runDocs st (d :: ds) = runDocs st1 ds := by rw [runDocs, hs]
      rw [List.cons_append, hl, hr]
      exact ih st1 ys

lemma step_mono (st st' : RbacState) (d : PyVal) (h : step st d = .ok st') (k : String)
    (hk : k ∈ rbacKinds) (nn : String) (v : PyVal)
    (hget : dictGet (getKindMap st k) nn = some v) :
    dictGet (getKindMap st' k) nn = some v := by
  cases hc : classifyDoc d with
  | invalid =>
    rw [step_invalid st d hc] at h
    cases h
    rw [getKindMap_warnings]
    exact hget
  | crash e0 =>
    rw [step_crash st d e0 hc] at h
    have h' : (Except.error e0 : Except RbacErr RbacState) = .ok st' := h
    cases h'
  | valid k2 nn2 =>
    have hk2 := classifyDoc_valid_kind d k2 nn2 hc
    cases hl : dictGet (getKindMap st k2) nn2 with
    | some w =>
      rw [step_valid_dup st d k2 nn2 w hc hl] at h
      cases h
    | none =>
      rw [step_valid_store st d k2 nn2 hc hl] at h
      cases h
      by_cases hkk : k = k2
      · subst hkk
        rw [getKindMap_setKindMap_self]
        exact dictGet_append_some _ _ _ _ hget
      · rw [getKindMap_setKindMap_other st k2 k _ hk2 hk hkk]
        exact hget

lemma runDocs_mono : ∀ (docs : List PyVal) (st st' : RbacState),
    runDocs st docs = .ok st' → ∀ k, k ∈ rbacKinds → ∀ nn v,
    dictGet (getKindMap st k) nn = some v → dictGet (getKindMap st' k) nn = some v := by
  intro docs
  induction docs with
  | nil =>
    intro st st' h k hk nn v hget
    have h' : (Except.ok st : Except RbacErr RbacState) = .ok st' := h
    cases h'
    exact hget
  | cons d ds ih =>
    intro st st' h k hk nn v hget
    rw [runDocs] at h
    cases hs : step st d with
    | error e =>
      rw [hs] at h
      have h' : (Except.error e : Except RbacErr RbacState) = .ok st' := h
      cases h'
    | ok st1 =>
      rw [hs] at h
      have h' : runDocs st1 ds = .ok st' := h
      exact ih st1 st' h' k hk nn v (step_mono st st1 d hs k hk nn v hget)

lemma runDocs_all_invalid : ∀ (docs : List PyVal) (st : RbacState),
    (∀ d ∈ docs, classifyDoc d = .invalid) →
    runDocs st docs = .ok { st with warnings := st.warnings + docs.length } := by
  intro docs
  induction docs with
  | nil => intro st _; rfl
  | cons d ds ih =>
    intro st hall
    rw [runDocs, step_invalid st d (hall d (List.mem_cons_self d ds))]
    have hrec := ih { st with warnings := st.warnings + 1 }
      (fun d' hd' => hall d' (List.mem_cons_of_mem _ hd'))
    have harith : st.warnings + 1 + ds.length = st.warnings + (d :: ds).length := by
      simp only [List.length_cons]
      omega
    exact hrec.trans (congrArg (fun n => Except.ok { st with warnings := n }) harith)

lemma allEmpty_dictGet (st : RbacState) (k nn : String) (he : allEmpty st = true)
    (hk : k ∈ rbacKinds) : dictGet (getKindMap st k) nn = none := by
  rw [allEmpty] at he
  simp only [Bool.and_eq_true, List.isEmpty_iff] at he
  simp only [rbacKinds, List.mem_cons, List.mem_singleton, List.not_mem_nil, or_false] at hk
  rcases hk with rfl | rfl | rfl | rfl
  · rw [getKindMap_role, he.1.1.1]
    rfl
  · rw [getKindMap_clusterRole, he.1.1.2]
    rfl
  · rw [getKindMap_roleBinding, he.1.2]
    rfl
  · rw [getKindMap_clusterRoleBinding, he.2]
    rfl

end Rbac

/-- C10 counterexample: the claim quantifies over every list of parsed
YAML documents, but a document whose `metadata` key holds a non-mapping
value (the string `"x"`) makes `metadata.get('name', "")` raise an
uncaught `AttributeError`, and a document whose `kind` is a mapping
makes `kind not in rbac_resources.keys()` raise an uncaught `TypeError`
(unhashable type): on either input the function neither
warns-and-excludes nor calls `fail_json`. -/
theorem C10_rbac_counterexample :
    Rbac.get_rbac_resource_from_yaml
      [PyVal.vdict [("kind", PyVal.vstr "Role"), ("metadata", PyVal.vstr "x")]] =
      Except.error Rbac.RbacErr.attrError ∧
    Rbac.get_rbac_resource_from_yaml [PyVal.vdict [("kind", PyVal.vdict [])]] =
      Except.error Rbac.RbacErr.typeError :=
  ⟨rfl, rfl⟩

/-- C10 (amended): for every list of parsed YAML documents in which no
document makes the check chain raise — a mapping/list-valued `kind`
raises `TypeError` at the key-membership test, and a non-mapping
`metadata`/`roleRef` raises `AttributeError` at `.get` —
`get_rbac_resource_from_yaml` raises nothing (every failure is one of
the two `fail_json` calls); it fails the module with the duplicate
error whenever two documents valid for the same RBAC kind share a
`namespace/name` key; it fails with the empty error exactly when every
document is warned-and-skipped; and otherwise it returns the
accumulator with its four kind dictionaries (`Role`, `ClusterRole`,
`RoleBinding`, `ClusterRoleBinding`) in which every valid document is
stored under its `namespace/name` key, every stored entry comes from a
valid document, and the number of warnings equals the number of
skipped documents. -/
theorem C10_rbac_resource_amended (docs : List PyVal)
    (hgood : ∀ d ∈ docs, (Rbac.classifyDoc d).isCrash = false) :
    (∀ e, Rbac.get_rbac_resource_from_yaml docs = Except.error e →
      e = Rbac.RbacErr.failDuplicate ∨ e = Rbac.RbacErr.failEmpty) ∧
    (Rbac.get_rbac_resource_from_yaml docs = Except.error Rbac.RbacErr.failEmpty ↔
      ∀ d ∈ docs, Rbac.classifyDoc d = Rbac.DocClass.invalid) ∧
    (∀ l1 d1 l2 d2 l3 k nn, docs = l1 ++ (d1 :: (l2 ++ (d2 :: l3))) →
      Rbac.classifyDoc d1 = Rbac.DocClass.valid k nn →
      Rbac.classifyDoc d2 = Rbac.DocClass.valid k nn →
      Rbac.get_rbac_resource_from_yaml docs = Except.error Rbac.RbacErr.failDuplicate) ∧
    (∀ st, Rbac.get_rbac_resource_from_yaml docs = Except.ok st →
      (∀ d ∈ docs, ∀ k nn, Rbac.classifyDoc d = Rbac.DocClass.valid k nn →
        dictGet (Rbac.getKindMap st k) nn = some d) ∧
      (∀ k, k ∈ Rbac.rbacKinds → ∀ nn d, dictGet (Rbac.getKindMap st k) nn = some d →
        d ∈ docs ∧ Rbac.classifyDoc d = Rbac.DocClass.valid k nn) ∧
      st.warnings =
        (docs.filter fun d => decide (Rbac.classifyDoc d = Rbac.DocClass.invalid)).length) := by
  refine ⟨?_, ⟨?_, ?_⟩, ?_, ?_⟩
  · intro e hres
    rw [Rbac.get_rbac_resource_from_yaml] at hres
    cases hr : Rbac.runDocs Rbac.initRbacState docs with
    | error e0 =>
      rw [hr] at hres
      have h' : (Except.error e0 : Except Rbac.RbacErr Rbac.RbacState) =
        Except.error e := hres
      have he := Except.error.inj h'
      subst he
      exact Or.inl (Rbac.runDocs_good_dup docs _ _ hgood hr)
    | ok st =>
      rw [hr] at hres
      have h' : (if Rbac.allEmpty st = true then
          (Except.error Rbac.RbacErr.failEmpty : Except Rbac.RbacErr Rbac.RbacState)
        else Except.ok st) = Except.error e := hres
      by_cases hae : Rbac.allEmpty st = true
      · rw [if_pos hae] at h'
        exact Or.inr (Except.error.inj h').symm
      · rw [if_neg hae] at h'
        cases h'
  · intro hres
    rw [Rbac.get_rbac_resource_from_yaml] at hres
    cases hr : Rbac.runDocs Rbac.initRbacState docs with
    | error e =>
      rw [hr] at hres
      have h' : (Except.error e : Except Rbac.RbacErr Rbac.RbacState) =
        Except.error Rbac.RbacErr.failEmpty := hres
      have he := Except.error.inj h'
      rw [Rbac.runDocs_good_dup docs _ e hgood hr] at he
      cases he
    | ok st =>
      rw [hr] at hres
      have h' : (if Rbac.allEmpty st = true then
          (Except.error Rbac.RbacErr.failEmpty : Except Rbac.RbacErr Rbac.RbacState)
        else Except.ok st) = Except.error Rbac.RbacErr.failEmpty := hres
      by_cases hae : Rbac.allEmpty st = true
      · intro d hd
        cases hc : Rbac.classifyDoc d with
        | invalid => rfl
        | crash e0 =>
          have hg := hgood d hd
          rw [hc] at hg
          exact absurd hg (by simp [Rbac.DocClass.isCrash])
        | valid k nn =>
          have hinv := Rbac.runDocs_StInv docs _ [] st Rbac.StInv_init hr
          rw [List.nil_append] at hinv
          have hget := hinv.2.1 d hd k nn hc
          rw [Rbac.allEmpty_dictGet st k nn hae (Rbac.classifyDoc_valid_kind d k nn hc)]
            at hget
          cases hget
      · rw [if_neg hae] at h'
        cases h'
  · intro hall
    rw [Rbac.get_rbac_resource_from_yaml, Rbac.runDocs_all_invalid docs _ hall]
    rfl
  · intro l1 d1 l2 d2 l3 k nn hdocs hc1 hc2
    subst hdocs
    cases hr1 : Rbac.runDocs Rbac.initRbacState l1 with
    | error e =>
      have he := Rbac.runDocs_good_dup l1 _ e
        (fun d hd => hgood d (List.mem_append_left _ hd)) hr1
      subst he
      have hfull : Rbac.runDocs Rbac.initRbacState (l1 ++ (d1 :: (l2 ++ (d2 :: l3)))) =
          Except.error Rbac.RbacErr.failDuplicate := by
        rw [Rbac.runDocs_append, hr1]
      rw [Rbac.get_rbac_resource_from_yaml, hfull]
    | ok st1 =>
      cases hl1 : dictGet (Rbac.getKindMap st1 k) nn with
      | some v =>
        have hfull : Rbac.runDocs Rbac.initRbacState (l1 ++ (d1 :: (l2 ++ (d2 :: l3)))) =
            Except.error Rbac.RbacErr.failDuplicate := by
          rw [Rbac.runDocs_append, hr1]
          show Rbac.runDocs st1 (d1 :: (l2 ++ (d2 :: l3))) =
            Except.error Rbac.RbacErr.failDuplicate
          rw [Rbac.runDocs, Rbac.step_valid_dup st1 d1 k nn v hc1 hl1]
        rw [Rbac.get_rbac_resource_from_yaml, hfull]
      | none =>
        have hentry : dictGet (Rbac.getKindMap
            (Rbac.setKindMap st1 k (Rbac.getKindMap st1 k ++ [(nn, d1)])) k) nn = some d1 := by
          rw [Rbac.getKindMap_setKindMap_self]
          exact Rbac.dictGet_append_single_self _ _ _ hl1
        cases hr2 : Rbac.runDocs
            (Rbac.setKindMap st1 k (Rbac.getKindMap st1 k ++ [(nn, d1)])) l2 with
        | error e2 =>
          have he := Rbac.runDocs_good_dup l2 _ e2
            (fun d hd => hgood d (List.mem_append_right _
              (List.mem_cons_of_mem _ (List.mem_append_left _ hd)))) hr2
          subst he
          have hfull : Rbac.runDocs Rbac.initRbacState (l1 ++ (d1 :: (l2 ++ (d2 :: l3)))) =
              Except.error Rbac.RbacErr.failDuplicate := by
            rw [Rbac.runDocs_append, hr1]
            show Rbac.runDocs st1 (d1 :: (l2 ++ (d2 :: l3))) =
              Except.error Rbac.RbacErr.failDuplicate
            rw [Rbac.runDocs, Rbac.step_valid_store st1 d1 k nn hc1 hl1]
            show Rbac.runDocs
                (Rbac.setKindMap st1 k (Rbac.getKindMap st1 k ++ [(nn, d1)]))
                (l2 ++ (d2 :: l3)) = Except.error Rbac.RbacErr.failDuplicate
            rw [Rbac.runDocs_append, hr2]
          rw [Rbac.get_rbac_resource_from_yaml, hfull]
        | ok st3 =>
          have hk := Rbac.classifyDoc_valid_kind d1 k nn hc1
          have hentry3 : dictGet (Rbac.getKindMap st3 k) nn = some d1 :=
            Rbac.runDocs_mono l2 _ st3 hr2 k hk nn d1 hentry
          have hfull : Rbac.runDocs Rbac.initRbacState (l1 ++ (d1 :: (l2 ++ (d2 :: l3)))) =
              Except.error Rbac.RbacErr.failDuplicate := by
            rw [Rbac.runDocs_append, hr1]
            show Rbac.runDocs st1 (d1 :: (l2 ++ (d2 :: l3))) =
              Except.error Rbac.RbacErr.failDuplicate
            rw [Rbac.runDocs, Rbac.step_valid_store st1 d1 k nn hc1 hl1]
            show Rbac.runDocs
                (Rbac.setKindMap st1 k (Rbac.getKindMap st1 k ++ [(nn, d1)]))
                (l2 ++ (d2 :: l3)) = Except.error Rbac.RbacErr.failDuplicate
            rw [Rbac.runDocs_append, hr2]
            show Rbac.runDocs st3 (d2 :: l3) = Except.error Rbac.RbacErr.failDuplicate
            rw [Rbac.runDocs, Rbac.step_valid_dup st3 d2 k nn d1 hc2 hentry3]
          rw [Rbac.get_rbac_resource_from_yaml, hfull]
  · intro st hres
    rw [Rbac.get_rbac_resource_from_yaml] at hres
    cases hr : Rbac.runDocs Rbac.initRbacState docs with
    | error e =>
      rw [hr] at hres
      have h' : (Except.error e : Except Rbac.RbacErr Rbac.RbacState) = Except.ok st := hres
      cases h'
    | ok st0 =>
      rw [hr] at hres
      have h' : (if Rbac.allEmpty st0 = true then
          (Except.error Rbac.RbacErr.failEmpty : Except Rbac.RbacErr Rbac.RbacState)
        else Except.ok st0) = Except.ok st := hres
      by_cases hae : Rbac.allEmpty st0 = true
      · rw [if_pos hae] at h'
        cases h'
      · rw [if_neg hae] at h'
        cases h'
        have hinv := Rbac.runDocs_StInv docs _ [] st Rbac.StInv_init hr
        rw [List.nil_append] at hinv
        exact ⟨fun d hd k nn hc => hinv.2.1 d hd k nn hc, hinv.1, hinv.2.2⟩

/-- Witness for C10: a single well-formed Role document does not raise
(its only possible errors are the two `fail_json` outcomes), and on the
empty document list the empty-failure characterization holds. -/
theorem C10_rbac_resource_amended_witness :
    (∀ e, Rbac.get_rbac_resource_from_yaml
      [PyVal.vdict [("kind", PyVal.vstr "Role"),
        ("metadata", PyVal.vdict [("name", PyVal.vstr "r1"),
          ("namespace", PyVal.vstr "ns")])]] = Except.error e →
      e = Rbac.RbacErr.failDuplicate ∨ e = Rbac.RbacErr.failEmpty) ∧
    (Rbac.get_rbac_resource_from_yaml [] = Except.error Rbac.RbacErr.failEmpty ↔
      ∀ d ∈ ([] : List PyVal), Rbac.classifyDoc d = Rbac.DocClass.invalid) :=
  ⟨(C10_rbac_resource_amended
      [PyVal.vdict [("kind", PyVal.vstr "Role"),
        ("metadata", PyVal.vdict [("name", PyVal.vstr "r1"),
          ("namespace", PyVal.vstr "ns")])]] (by decide)).1,
   (C10_rbac_resource_amended [] (by simp)).2.1⟩
